import Mathlib

/-!
# xow: controller session and dongle framing

A shallow embedding of `src/controller/controller.cpp` and `src/dongle/dongle.cpp`.

* Machine integers are `Nat`/`Int` with explicit reductions modulo `2^w` where the C++
  code converts between widths.
* The collaborators that are only called (the virtual input device, the protocol
  base class that transmits a rumble command, the radio transport) are represented by
  the sequence of calls the code issues to them.
* Floating point values are rationals; the primitive floating point operations
  (rounding to `float`/`double`, the constant `M_PI`, `sin`, `cos`) are the fields of a
  `FloatEnv`, and the code's expressions are spelled out operation by operation over them.
-/

namespace Xow

/-! ## Force feedback (`Controller::feedbackReceived`) -/

/-- Effect kind `FF_RUMBLE` of the Linux input API (`linux/input.h`). -/
def FF_RUMBLE : Nat := 0x50

/-- Modelled from the spec: the motor selector `RUMBLE_ALL` ("targeting all motors") is
declared in the protocol header, which is not among the sources; only its name is used. -/
def RUMBLE_ALL : Nat := 0x0f

/-- The fields of the Linux `ff_effect` that `feedbackReceived` reads
(`effect.u.rumble.*` are flattened; all are unsigned 16-bit in the C declaration). -/
structure ff_effect where
  type : Nat
  direction : Nat
  weak_magnitude : Nat
  strong_magnitude : Nat
  deriving DecidableEq, Repr

/-- The rumble command handed to `performRumble`; `RumbleData rumble = {}` zeroes it. -/
structure RumbleData where
  motors : Nat := 0
  triggerLeft : Nat := 0
  triggerRight : Nat := 0
  left : Nat := 0
  right : Nat := 0
  duration : Nat := 0
  deriving DecidableEq, Repr

/-- The primitive floating point operations the code relies on. Finite floating point
values are rationals, so every operation is a function on `ℚ`. -/
structure FloatEnv where
  /-- Rounding of a real value to `float` (binary32). -/
  toFloat : ℚ → ℚ
  /-- Rounding of a real value to `double` (binary64). -/
  toDouble : ℚ → ℚ
  /-- The `double` constant `M_PI`. -/
  M_PI : ℚ
  /-- The function `sin` of the C library on `double`. -/
  sin : ℚ → ℚ
  /-- The function `cos` of the C library on `double`. -/
  cos : ℚ → ℚ

/-- Conversion of a (non-negative) `float` to `uint8_t`: the fraction is discarded. -/
def floatToU8 (x : ℚ) : Nat := (Int.toNat ⌊x⌋) % 256

/-- `static_cast<uint32_t>(magnitude) * gain / 0xffffff` stored in a `uint8_t`. -/
def rumblePower (magnitude gain : Nat) : Nat :=
  ((magnitude * gain) % 2 ^ 32 / 0xffffff) % 256

namespace FloatEnv

/-- `float angle = static_cast<float>(effect.direction) / 0xffff - 0.125;`
The quotient is a `float` operation, the subtraction is done in `double` (the literal
`0.125` is a `double`) and the result is stored in a `float`. -/
def angle (E : FloatEnv) (direction : Nat) : ℚ :=
  E.toFloat (E.toDouble (E.toFloat (E.toFloat direction / E.toFloat 0xffff) - 0.125))

/-- The argument `2 * M_PI * angle` of `sin` and `cos`, evaluated in `double`. -/
def phase (E : FloatEnv) (direction : Nat) : ℚ :=
  E.toDouble (E.toDouble (2 * E.M_PI) * E.angle direction)

/-- `float left = sin(2 * M_PI * angle); left = left > 0 ? left : 0;` -/
def leftAmount (E : FloatEnv) (direction : Nat) : ℚ :=
  let left := E.toFloat (E.sin (E.phase direction))
  if left > 0 then left else 0

/-- `float right = cos(2 * M_PI * angle); right = right < 0 ? -right : 0;` -/
def rightAmount (E : FloatEnv) (direction : Nat) : ℚ :=
  let right := E.toFloat (E.cos (E.phase direction))
  if right < 0 then -right else 0

/-- `amount * maxPower / 4` evaluated in `float` and stored in a `uint8_t`. -/
def triggerPower (E : FloatEnv) (amount : ℚ) (maxPower : Nat) : Nat :=
  floatToU8 (E.toFloat (E.toFloat (amount * E.toFloat maxPower) / E.toFloat 4))

/-- The accuracy of the floating point operations on which the directional
decomposition at `direction` relies, in the standard model of rounding: on values of
magnitude between `1/8` and `65536` a conversion to `float` has relative error at most
`2^-24` and one to `double` at most `2^-53`; `M_PI` is within `10^-15` of `π`; and `sin`
and `cos` of the C library, at the argument the code passes, are within `10^-8` of the
true sine and cosine. -/
def Accurate (E : FloatEnv) (direction : Nat) : Prop :=
  (∀ x : ℚ, 1 / 8 ≤ |x| → |x| ≤ 65536 → |E.toFloat x - x| ≤ |x| / 2 ^ 24) ∧
  (∀ x : ℚ, 1 / 8 ≤ |x| → |x| ≤ 65536 → |E.toDouble x - x| ≤ |x| / 2 ^ 53) ∧
  |(E.M_PI : ℝ) - Real.pi| ≤ 1 / 10 ^ 15 ∧
  |(E.sin (E.phase direction) : ℝ) - Real.sin (E.phase direction)| ≤ 1 / 10 ^ 8 ∧
  |(E.cos (E.phase direction) : ℝ) - Real.cos (E.phase direction)| ≤ 1 / 10 ^ 8

end FloatEnv

/-! ## The virtual input device as seen from the controller session -/

/-- Key codes of the Linux input API that `controller.cpp` uses. -/
inductive Key
  | BTN_MODE | BTN_START | BTN_SELECT | BTN_A | BTN_B | BTN_X | BTN_Y
  | BTN_TL | BTN_TR | BTN_THUMBL | BTN_THUMBR
  deriving DecidableEq, Repr

/-- Absolute axis codes of the Linux input API that `controller.cpp` uses. -/
inductive Axis
  | ABS_X | ABS_Y | ABS_Z | ABS_RX | ABS_RY | ABS_RZ | ABS_HAT0X | ABS_HAT0Y
  deriving DecidableEq, Repr

/-- `InputDevice::AxisConfig`; `AxisConfig config = {}` zeroes it. -/
structure AxisConfig where
  minimum : Int := 0
  maximum : Int := 0
  fuzz : Int := 0
  flat : Int := 0
  deriving DecidableEq, Repr

/-- A call issued to the `InputDevice` collaborator. -/
inductive DeviceCall
  | addKey (code : Key)
  | addAxis (code : Axis) (config : AxisConfig)
  | addFeedback (code : Nat)
  | create (vendorId productId : Nat) (name : String)
  | setKey (code : Key) (pressed : Bool)
  | setAxis (code : Axis) (value : Int)
  | report
  deriving DecidableEq, Repr

/-- The part of a controller session that `controller.cpp` itself reads and writes: the
`rumbling` flag, and the calls issued so far to the session's `inputDevice`. -/
structure Controller where
  rumbling : Bool := false
  inputDevice : List DeviceCall := []
  deriving DecidableEq, Repr

/-- The rumble command `feedbackReceived` assembles once both early returns are passed. -/
def buildRumble (E : FloatEnv) (effect : ff_effect) (gain : Nat) : RumbleData :=
  let weak := rumblePower effect.weak_magnitude gain
  let strong := rumblePower effect.strong_magnitude gain
  let rumble : RumbleData :=
    { motors := RUMBLE_ALL, left := strong, right := weak, duration := 0xff }
  if 0x4000 ≤ effect.direction ∧ effect.direction ≤ 0xc000 then
    let maxPower := if strong > weak then strong else weak
    { rumble with
      triggerLeft := E.triggerPower (E.leftAmount effect.direction) maxPower
      triggerRight := E.triggerPower (E.rightAmount effect.direction) maxPower }
  else
    rumble

/-- `Controller::feedbackReceived(effect, gain)`: the session afterwards and the rumble
commands passed to `performRumble`, in order. -/
def feedbackReceived (E : FloatEnv) (c : Controller) (effect : ff_effect) (gain : Nat) :
    Controller × List RumbleData :=
  if effect.type ≠ FF_RUMBLE then
    (c, [])
  else if !c.rumbling && gain == 0 then
    (c, [])
  else
    ({ c with rumbling := decide (gain > 0) }, [buildRumble E effect gain])

/-! ## Announcement and input reports -/

/-- The fields of the announce packet that `deviceAnnounced` passes on (the version
fields are only logged). -/
structure AnnounceData where
  vendorId : Nat
  productId : Nat
  deriving DecidableEq, Repr

/-- Modelled from the spec: the button bit-field of an input packet is declared in the
protocol header, which is not among the sources; each button is a single bit. -/
structure Buttons where
  start : Bool := false
  select : Bool := false
  a : Bool := false
  b : Bool := false
  x : Bool := false
  y : Bool := false
  dpadUp : Bool := false
  dpadDown : Bool := false
  dpadLeft : Bool := false
  dpadRight : Bool := false
  bumperLeft : Bool := false
  bumperRight : Bool := false
  stickLeft : Bool := false
  stickRight : Bool := false
  deriving DecidableEq, Repr

/-- Modelled from the spec: the input packet is declared in the protocol header, which
is not among the sources; the stick axes are signed 16-bit values, the trigger axes
unsigned. The stick fields hold the signed value the C++ code reads. -/
structure InputData where
  buttons : Buttons := {}
  triggerLeft : Nat := 0
  triggerRight : Nat := 0
  stickLeftX : Int := 0
  stickLeftY : Int := 0
  stickRightX : Int := 0
  stickRightY : Int := 0
  deriving DecidableEq, Repr

/-- The value of a one-bit field after integer promotion. -/
def bit (b : Bool) : Int := if b then 1 else 0

/-- The 16-bit pattern of a signed 16-bit value. -/
def toU16 (v : Int) : Nat := (v % 65536).toNat

/-- The signed value of a 16-bit pattern. -/
def toI16 (n : Nat) : Int := if n % 65536 < 32768 then n % 65536 else (n % 65536 : Int) - 65536

/-- `stickConfig` of `deviceAnnounced`. -/
def stickConfig : AxisConfig := { minimum := -32768, maximum := 32767, fuzz := 255, flat := 4095 }

/-- `triggerConfig` of `deviceAnnounced`. -/
def triggerConfig : AxisConfig := { minimum := 0, maximum := 1023, fuzz := 3, flat := 63 }

/-- `dpadConfig` of `deviceAnnounced`. -/
def dpadConfig : AxisConfig := { minimum := -1, maximum := 1 }

/-- `Controller::deviceAnnounced(announce)`: the calls are appended to the session's
device in the order the code issues them. -/
def deviceAnnounced (c : Controller) (announce : AnnounceData) : Controller :=
  { c with inputDevice := c.inputDevice ++
      [ .addKey .BTN_MODE, .addKey .BTN_START, .addKey .BTN_SELECT,
        .addKey .BTN_A, .addKey .BTN_B, .addKey .BTN_X, .addKey .BTN_Y,
        .addKey .BTN_TL, .addKey .BTN_TR, .addKey .BTN_THUMBL, .addKey .BTN_THUMBR,
        .addAxis .ABS_X stickConfig, .addAxis .ABS_RX stickConfig,
        .addAxis .ABS_Y stickConfig, .addAxis .ABS_RY stickConfig,
        .addAxis .ABS_Z triggerConfig, .addAxis .ABS_RZ triggerConfig,
        .addAxis .ABS_HAT0X dpadConfig, .addAxis .ABS_HAT0Y dpadConfig,
        .addFeedback FF_RUMBLE,
        .create announce.vendorId announce.productId "Xbox One Wireless Controller" ] }

/-- `Controller::guideButtonPressed(button)`. -/
def guideButtonPressed (c : Controller) (pressed : Bool) : Controller :=
  { c with inputDevice := c.inputDevice ++ [ .setKey .BTN_MODE pressed, .report ] }

/-- `Controller::inputReceived(input)`: the calls are appended to the session's device
in the order the code issues them. `~v` on a promoted 16-bit value is `~~~v` on `Int`. -/
def inputReceived (c : Controller) (input : InputData) : Controller :=
  { c with inputDevice := c.inputDevice ++
      [ .setKey .BTN_START input.buttons.start,
        .setKey .BTN_SELECT input.buttons.select,
        .setKey .BTN_A input.buttons.a,
        .setKey .BTN_B input.buttons.b,
        .setKey .BTN_X input.buttons.x,
        .setKey .BTN_Y input.buttons.y,
        .setKey .BTN_TL input.buttons.bumperLeft,
        .setKey .BTN_TR input.buttons.bumperRight,
        .setKey .BTN_THUMBL input.buttons.stickLeft,
        .setKey .BTN_THUMBR input.buttons.stickRight,
        .setAxis .ABS_X input.stickLeftX,
        .setAxis .ABS_RX input.stickRightX,
        .setAxis .ABS_Y (~~~input.stickLeftY),
        .setAxis .ABS_RY (~~~input.stickRightY),
        .setAxis .ABS_Z input.triggerLeft,
        .setAxis .ABS_RZ input.triggerRight,
        .setAxis .ABS_HAT0X (bit input.buttons.dpadRight - bit input.buttons.dpadLeft),
        .setAxis .ABS_HAT0Y (bit input.buttons.dpadDown - bit input.buttons.dpadUp),
        .report ] }

/-- The value the device holds for `axis` after `calls`: that of the last `setAxis` on
it, if there is one. -/
def axisState (calls : List DeviceCall) (axis : Axis) : Option Int :=
  calls.foldl
    (fun st call =>
      match call with
      | .setAxis a v => if a = axis then some v else st
      | _ => st)
    none

/-- The registered configuration of `axis` after `calls`: that of the last `addAxis` on
it, if there is one. -/
def axisConfig (calls : List DeviceCall) (axis : Axis) : Option AxisConfig :=
  calls.foldl
    (fun st call =>
      match call with
      | .addAxis a cfg => if a = axis then some cfg else st
      | _ => st)
    none

/-! ## Outbound radio frames (`Dongle::sendControllerPacket`) -/

/-- A byte buffer (`Bytes`): the bytes in order, each below 256. -/
abbrev Bytes := List Nat

namespace Bytes

/-- Modelled from the spec: `Bytes::padding<T>(size)` is declared in a header that is
not among the sources; with `align = sizeof(T)` it is "the padding length needed to
align a given size", `(align - size % align) % align`. -/
def padding (align size : Nat) : Nat := (align - size % align) % align

/-- Modelled from the spec: `Bytes::pad(n)`, "pad with N zero bytes". -/
def pad (out : Bytes) (n : Nat) : Bytes := out ++ List.replicate n 0

/-- Modelled from the spec: `Bytes::append(bytes)`, "append raw bytes". -/
def append (out data : Bytes) : Bytes := out ++ data

end Bytes

/-- The fields of the transmission descriptor `TxWi` that the code sets; `TxWi txWi = {}`
zeroes it. Each field holds the value the member holds after the assignment: `phyType`
and `ack` receive constants, `mpduByteCount` receives a computed `size_t` and keeps the
low `Layout.mpduByteCountBits` bits of it (see `buildTxWi`). -/
structure TxWi where
  phyType : Nat := 0
  ack : Nat := 0
  mpduByteCount : Nat := 0
  deriving DecidableEq, Repr

/-- The fields of `WlanFrame::frameControl` that the code sets. -/
structure FrameControl where
  type : Nat := 0
  subtype : Nat := 0
  fromDs : Nat := 0
  deriving DecidableEq, Repr

/-- The fields of the link-layer header `WlanFrame` that the code sets. -/
structure WlanFrame where
  frameControl : FrameControl := {}
  duration : Nat := 0
  destination : Bytes := []
  source : Bytes := []
  bssId : Bytes := []
  deriving DecidableEq, Repr

/-- The QoS header `QosFrame`; the code sets none of its fields. -/
structure QosFrame where
  deriving DecidableEq, Repr

/-- What the radio header (not among the sources) fixes for `sendControllerPacket`: the
enumeration constants, the sizes of the three headers, the width in bits of the
fixed-width unsigned member `TxWi::mpduByteCount`, and the raw bytes of the values that
`Bytes::append` copies from memory. -/
structure Layout where
  MT_PHY_TYPE_OFDM : Nat
  MT_WLAN_DATA : Nat
  MT_WLAN_QOS_DATA : Nat
  CMD_PACKET_TX : Nat
  sizeofTxWi : Nat
  sizeofWlanFrame : Nat
  sizeofQosFrame : Nat
  mpduByteCountBits : Nat
  rawU32 : Nat → Bytes
  rawTxWi : TxWi → Bytes
  rawWlanFrame : WlanFrame → Bytes
  rawQosFrame : QosFrame → Bytes

/-- Every value occupies as many bytes as its `sizeof`: 4 for a `uint32_t`. -/
def Layout.WellSized (L : Layout) : Prop :=
  (∀ v, (L.rawU32 v).length = 4) ∧
  (∀ t, (L.rawTxWi t).length = L.sizeofTxWi) ∧
  (∀ w, (L.rawWlanFrame w).length = L.sizeofWlanFrame) ∧
  (∀ q, (L.rawQosFrame q).length = L.sizeofQosFrame)

/-- `__builtin_bswap32` on a 32-bit value. -/
def bswap32 (v : Nat) : Nat :=
  (v % 256) * 2 ^ 24 + (v / 2 ^ 8 % 256) * 2 ^ 16 + (v / 2 ^ 16 % 256) * 2 ^ 8 + v / 2 ^ 24 % 256

/-- `wcid - 1` (an `int`) converted to the `uint32_t` argument of `__builtin_bswap32`. -/
def wcidIndex (wcid : Nat) : Nat := (wcid + (2 ^ 32 - 1)) % 2 ^ 32

/-- `uint32_t length = sizeof(txWi) + sizeof(wlanFrame) + sizeof(qosFrame);` -/
def headerLength (L : Layout) : Nat :=
  (L.sizeofTxWi + L.sizeofWlanFrame + L.sizeofQosFrame) % 2 ^ 32

/-- `uint8_t framePadding = Bytes::padding<uint32_t>(length);` -/
def framePadding (L : Layout) : Nat := Bytes.padding 4 (headerLength L) % 256

/-- `uint8_t dataPadding = Bytes::padding<uint32_t>(packet.size());` -/
def dataPadding (packet : Bytes) : Nat := Bytes.padding 4 packet.length % 256

/-- The descriptor `txWi` that `sendControllerPacket` fills in. The assignment
`txWi.mpduByteCount = sizeof(WlanFrame) + sizeof(QosFrame) + packet.size();` converts the
`size_t` sum to the fixed-width unsigned member, which keeps it modulo
`2 ^ mpduByteCountBits`. -/
def buildTxWi (L : Layout) (packet : Bytes) : TxWi :=
  { phyType := L.MT_PHY_TYPE_OFDM, ack := 1,
    mpduByteCount :=
      (L.sizeofWlanFrame + L.sizeofQosFrame + packet.length) % 2 ^ L.mpduByteCountBits }

/-- The link-layer header `wlanFrame` that `sendControllerPacket` fills in. -/
def buildWlanFrame (L : Layout) (macAddress address : Bytes) : WlanFrame :=
  { frameControl := { type := L.MT_WLAN_DATA, subtype := L.MT_WLAN_QOS_DATA, fromDs := 1 },
    duration := 144, destination := address, source := macAddress, bssId := macAddress }

/-- The buffer `out` that `sendControllerPacket` assembles, append by append. -/
def controllerFrame (L : Layout) (macAddress : Bytes) (wcid : Nat) (address packet : Bytes) :
    Bytes :=
  let txWi := buildTxWi L packet
  let wlanFrame := buildWlanFrame L macAddress address
  let qosFrame : QosFrame := {}
  let wcidData := bswap32 (wcidIndex wcid)
  let out : Bytes := []
  let out := out.append (L.rawU32 wcidData)
  let out := out.pad 4
  let out := out.append (L.rawTxWi txWi)
  let out := out.append (L.rawWlanFrame wlanFrame)
  let out := out.append (L.rawQosFrame qosFrame)
  let out := out.pad (framePadding L)
  let out := out.append packet
  let out := out.pad (dataPadding packet)
  out

/-- `Dongle::sendControllerPacket(wcid, address, packet)`: the assembled buffer is handed
to the transport's `sendCommand`, whose answer is returned. -/
def sendControllerPacket (L : Layout) (macAddress : Bytes) (sendCommand : Nat → Bytes → Bool)
    (wcid : Nat) (address packet : Bytes) : Bool :=
  if !sendCommand L.CMD_PACKET_TX (controllerFrame L macAddress wcid address packet) then
    false
  else
    true

/-- The four bytes of a 32-bit value on a little-endian host. -/
def littleEndian32 (v : Nat) : Bytes :=
  [v % 256, v / 2 ^ 8 % 256, v / 2 ^ 16 % 256, v / 2 ^ 24 % 256]

/-- An address field: the first six bytes, zero-filled. -/
def address6 (a : Bytes) : Bytes := (a ++ List.replicate 6 0).take 6

/-- An illustrative little-endian layout with header sizes 20, 24 and 2 and a 14-bit
byte count, used to evaluate the definitions on examples; the positions of the fields
inside the headers are placeholders. -/
def exampleLayout : Layout where
  MT_PHY_TYPE_OFDM := 1
  MT_WLAN_DATA := 2
  MT_WLAN_QOS_DATA := 8
  CMD_PACKET_TX := 0
  sizeofTxWi := 20
  sizeofWlanFrame := 24
  sizeofQosFrame := 2
  mpduByteCountBits := 14
  rawU32 := littleEndian32
  rawTxWi := fun t =>
    littleEndian32 t.phyType ++ littleEndian32 (t.ack + 2 * t.mpduByteCount)
      ++ List.replicate 12 0
  rawWlanFrame := fun w =>
    [w.frameControl.type % 256 + 16 * (w.frameControl.subtype % 16), w.frameControl.fromDs % 256,
      w.duration % 256, w.duration / 256 % 256]
      ++ address6 w.destination ++ address6 w.source ++ address6 w.bssId ++ [0, 0]
  rawQosFrame := fun _ => [0, 0]

/-- An input packet with both sticks deflected and the D-pad pressed to the right. -/
def samplePacket : InputData :=
  { stickLeftX := 7, stickLeftY := 0x1234, stickRightX := -9, stickRightY := -32768,
    buttons := { dpadRight := true } }

/-- Taylor polynomial of degree seven of the sine about zero. -/
def sinPoly (t : ℚ) : ℚ := t - t ^ 3 / 6 + t ^ 5 / 120 - t ^ 7 / 5040

/-- Taylor polynomial of degree six of the cosine about zero. -/
def cosPoly (t : ℚ) : ℚ := 1 - t ^ 2 / 2 + t ^ 4 / 24 - t ^ 6 / 720

/-- A floating point environment that computes exactly (no rounding), with a sixteen
digit `M_PI`, a sixteen digit `1/√2`, and with `sin` and `cos` expanded about three
quarters of `M_PI`, the middle of the range of arguments the code passes:
`sin (3π/4 + t) = (cos t - sin t) / √2` and `cos (3π/4 + t) = (-cos t - sin t) / √2`.
Used to evaluate the definitions on examples. -/
def exactEnv : FloatEnv where
  toFloat := id
  toDouble := id
  M_PI := 3141592653589793 / 1000000000000000
  sin := fun x =>
    (7071067811865475 / 10000000000000000) *
      (cosPoly (x - 3 * (3141592653589793 / 1000000000000000) / 4)
        - sinPoly (x - 3 * (3141592653589793 / 1000000000000000) / 4))
  cos := fun x =>
    (7071067811865475 / 10000000000000000) *
      (0 - cosPoly (x - 3 * (3141592653589793 / 1000000000000000) / 4)
        - sinPoly (x - 3 * (3141592653589793 / 1000000000000000) / 4))

/-- A rumble effect with only the strong magnitude set, direction 0. -/
def strongOnlyEffect : ff_effect :=
  { type := FF_RUMBLE, direction := 0, weak_magnitude := 0, strong_magnitude := 0xffff }

/-- A rumble effect pointing straight ahead (direction `0x8000`). -/
def forwardEffect : ff_effect :=
  { type := FF_RUMBLE, direction := 0x8000, weak_magnitude := 0x4000,
    strong_magnitude := 0xffff }

/-- A rumble effect pointing outside the upper half (direction `0x2000`). -/
def sideEffect : ff_effect :=
  { type := FF_RUMBLE, direction := 0x2000, weak_magnitude := 0x4000,
    strong_magnitude := 0xffff }

/-! ## The client registry (`Dongle`)

The functions below are the sequential behaviour of the entry points of `dongle.cpp`. The
`std::lock_guard` taken by `beforeClose` has no effect on a single thread and is not
represented. For a client identifier outside `1 .. size` the C++ code indexes the table
out of bounds (undefined behaviour); the functions are meaningful for identifiers in
range only, and the theorems assume it. -/

/-- Modelled from the spec: the member initialiser of `rumbling` is in the class
declaration, which is not among the sources; a newly constructed session has the
rumble-active flag false and has issued no call to its input device. -/
def Controller.fresh : Controller := { rumbling := false, inputDevice := [] }

/-- A registered session: the controller constructed by `clientConnected`, and the
`(wcid, address)` to which its `sendPacket` closure is bound. -/
structure Session where
  wcid : Nat
  address : Bytes
  controller : Controller
  deriving DecidableEq, Repr

/-- What `dongle.cpp` does to its collaborators: a log line (format string and
arguments), a call of `powerOff` or `handlePacket` on the session of a slot, the call of
the transport's `Mt76::beforeClose`. -/
inductive DongleEvent
  | info (format : String) (args : List Nat)
  | error (format : String) (args : List Nat)
  | powerOff (slot : Nat)
  | handlePacket (slot : Nat) (packet : Bytes)
  | transportClose
  deriving DecidableEq, Repr

/-- The registry: the table `controllers` of optional sessions (slot `i` holds the
session of client `i + 1`), and the events issued so far. -/
structure Dongle where
  controllers : List (Option Session)
  events : List DongleEvent := []
  deriving DecidableEq, Repr

namespace Dongle

/-- A registry of `size` empty slots, as after construction. -/
def init (size : Nat) : Dongle := { controllers := List.replicate size none }

/-- The session in slot `i` (`controllers[i]`), if there is one. -/
def slot (d : Dongle) (i : Nat) : Option Session := (d.controllers[i]?).join

/-- The client identifier indexes the table: `1 ≤ wcid ≤ size`. -/
def InRange (d : Dongle) (wcid : Nat) : Prop := 1 ≤ wcid ∧ wcid ≤ d.controllers.length

instance (d : Dongle) (wcid : Nat) : Decidable (d.InRange wcid) := by
  unfold InRange
  infer_instance

end Dongle

/-- `Dongle::clientConnected(wcid, address)`. -/
def clientConnected (d : Dongle) (wcid : Nat) (address : Bytes) : Dongle :=
  { controllers :=
      d.controllers.set (wcid - 1)
        (some { wcid := wcid, address := address, controller := Controller.fresh })
    events := d.events ++ [.info "Controller '%d' connected" [wcid]] }

/-- `Dongle::clientDisconnected(wcid)`. -/
def clientDisconnected (d : Dongle) (wcid : Nat) : Dongle :=
  match d.slot (wcid - 1) with
  | none => { d with events := d.events ++ [.error "Controller '%d' is not connected" [wcid]] }
  | some _ =>
    { controllers := d.controllers.set (wcid - 1) none
      events := d.events ++ [.info "Controller '%d' disconnected" [wcid]] }

/-- `Dongle::packetReceived(wcid, packet)`. The session's `handlePacket` belongs to the
protocol base class (not among the sources): it is a parameter that returns whether the
packet was handled and the controller as the callbacks it invoked left it. -/
def packetReceived (handlePacket : Controller → Bytes → Bool × Controller) (d : Dongle)
    (wcid : Nat) (packet : Bytes) : Dongle :=
  match d.slot (wcid - 1) with
  | none =>
    { d with events := d.events ++ [.error "Packet for unconnected controller '%d'" [wcid]] }
  | some s =>
    let result := handlePacket s.controller packet
    { controllers := d.controllers.set (wcid - 1) (some { s with controller := result.2 })
      events := d.events ++ [.handlePacket (wcid - 1) packet] ++
        (if !result.1 then [.error "Error handling packet for controller '%d'" [wcid]] else []) }

/-- The loop of `beforeClose` over the table from slot `i` on: `powerOff` is called on
the session of every occupied slot, and a failure is logged. The outcome of `powerOff`
on the session of a slot is the parameter `powerOff`. -/
def powerOffSweep (powerOff : Nat → Bool) : Nat → List (Option Session) → List DongleEvent
  | _, [] => []
  | i, none :: rest => powerOffSweep powerOff (i + 1) rest
  | i, some _ :: rest =>
    .powerOff i ::
      ((if !powerOff i then [.error "Failed to power off controller" []] else [])
        ++ powerOffSweep powerOff (i + 1) rest)

/-- The events `Dongle::beforeClose` issues, in order. -/
def beforeCloseEvents (powerOff : Nat → Bool) (d : Dongle) : List DongleEvent :=
  [.info "Dongle power-off" []] ++ powerOffSweep powerOff 0 d.controllers ++ [.transportClose]

/-- `Dongle::beforeClose()`: the registry afterwards and the value returned.
`transportClose` is the value returned by the transport's `Mt76::beforeClose`. -/
def beforeClose (powerOff : Nat → Bool) (transportClose : Bool) (d : Dongle) : Dongle × Bool :=
  let d' := { d with events := d.events ++ beforeCloseEvents powerOff d }
  if !transportClose then (d', false) else (d', true)

/-- A connect or disconnect event delivered by the transport. -/
inductive ClientEvent
  | connect (wcid : Nat) (address : Bytes)
  | disconnect (wcid : Nat)
  deriving DecidableEq, Repr

namespace ClientEvent

/-- The client identifier of an event. -/
def wcid : ClientEvent → Nat
  | connect w _ => w
  | disconnect w => w

/-- Whether the event is a connect. -/
def isConnect : ClientEvent → Bool
  | connect _ _ => true
  | disconnect _ => false

/-- The entry point of `dongle.cpp` that an event invokes. -/
def apply (d : Dongle) : ClientEvent → Dongle
  | connect w a => clientConnected d w a
  | disconnect w => clientDisconnected d w

/-- The registry after a sequence of events, delivered in order. -/
def run (d : Dongle) (events : List ClientEvent) : Dongle := events.foldl apply d

/-- The most recent event for client `w`, if there is one: `some true` for a connect,
`some false` for a disconnect. -/
def lastFor (w : Nat) : List ClientEvent → Option Bool
  | [] => none
  | e :: rest =>
    match lastFor w rest with
    | some b => some b
    | none => if e.wcid = w then some e.isConnect else none

end ClientEvent

/-- A sample registry of four slots with clients 2 and 4 connected. -/
def sampleDongle : Dongle :=
  clientConnected (clientConnected (Dongle.init 4) 2 [1, 2, 3, 4, 5, 6]) 4 [6, 5, 4, 3, 2, 1]

/-! ## Sequences of force-feedback calls -/

/-- The session after a sequence of `feedbackReceived` calls, and the commands sent, each
with the gain of the call that sent it, in order. -/
def feedbackSequence (E : FloatEnv) :
    Controller → List (ff_effect × Nat) → Controller × List (Nat × RumbleData)
  | c, [] => (c, [])
  | c, (effect, gain) :: rest =>
    let step := feedbackReceived E c effect gain
    let tail := feedbackSequence E step.1 rest
    (tail.1, step.2.map (fun cmd => (gain, cmd)) ++ tail.2)

namespace FloatEnv

/-- What the trigger powers at `direction` rely on: conversion to `float` is monotone
and leaves the quarters `k / 4` for `0 ≤ k ≤ 1020` and the value `-1` unchanged (they
are representable), and `sin` and `cos` of the C library, at the argument the code
passes, return a value between `-1` and `1`. -/
def Regular (E : FloatEnv) (direction : Nat) : Prop :=
  (∀ x y : ℚ, x ≤ y → E.toFloat x ≤ E.toFloat y) ∧
  (∀ k : ℕ, k ≤ 1020 → E.toFloat ((k : ℚ) / 4) = (k : ℚ) / 4) ∧
  E.toFloat (-1) = -1 ∧
  (-1 ≤ E.sin (E.phase direction) ∧ E.sin (E.phase direction) ≤ 1) ∧
  (-1 ≤ E.cos (E.phase direction) ∧ E.cos (E.phase direction) ≤ 1)

end FloatEnv

/-! ## Reading the calls issued to the input device -/

/-- The keys registered by the `addKey` calls among `calls`, in order. -/
def registeredKeys (calls : List DeviceCall) : List Key :=
  calls.filterMap fun call =>
    match call with
    | .addKey k => some k
    | _ => none

/-- The axes registered by the `addAxis` calls among `calls`, with their configuration,
in order. -/
def registeredAxes (calls : List DeviceCall) : List (Axis × AxisConfig) :=
  calls.filterMap fun call =>
    match call with
    | .addAxis a cfg => some (a, cfg)
    | _ => none

/-- The feedback channels registered by the `addFeedback` calls among `calls`, in order. -/
def registeredFeedback (calls : List DeviceCall) : List Nat :=
  calls.filterMap fun call =>
    match call with
    | .addFeedback f => some f
    | _ => none

/-- Whether a call registers a capability (`addKey`, `addAxis` or `addFeedback`). -/
def DeviceCall.isRegistration : DeviceCall → Bool
  | .addKey _ => true
  | .addAxis _ _ => true
  | .addFeedback _ => true
  | _ => false

/-! ## Theorems about `Controller::feedbackReceived` -/

theorem rumblePower_of_u16 (m g : Nat) (hm : m < 2 ^ 16) (hg : g < 2 ^ 16) :
    rumblePower m g = m * g / 0xffffff := by
  have hmg : m * g < 2 ^ 32 := by
    calc m * g ≤ (2 ^ 16 - 1) * (2 ^ 16 - 1) := Nat.mul_le_mul (by omega) (by omega)
      _ < 2 ^ 32 := by norm_num
  have hq : m * g / 0xffffff < 256 := by
    apply Nat.div_lt_of_lt_mul
    calc m * g ≤ (2 ^ 16 - 1) * (2 ^ 16 - 1) := Nat.mul_le_mul (by omega) (by omega)
      _ < 0xffffff * 256 := by norm_num
  unfold rumblePower
  rw [Nat.mod_eq_of_lt hmg, Nat.mod_eq_of_lt hq]

theorem rumblePower_zero_gain (m : Nat) : rumblePower m 0 = 0 := by
  simp [rumblePower]

theorem triggerPower_zero_power (E : FloatEnv) (hz : E.toFloat 0 = 0) (amount : ℚ) :
    E.triggerPower amount 0 = 0 := by
  simp [FloatEnv.triggerPower, floatToU8, hz]

theorem feedbackReceived_of_send (E : FloatEnv) (c : Controller) (effect : ff_effect)
    (gain : Nat) (ht : effect.type = FF_RUMBLE) (hs : c.rumbling = true ∨ gain ≠ 0) :
    feedbackReceived E c effect gain =
      ({ c with rumbling := decide (gain > 0) }, [buildRumble E effect gain]) := by
  unfold feedbackReceived
  rw [if_neg (by simpa using ht)]
  rw [if_neg]
  rcases hs with h | h
  · simp [h]
  · simp [h]

theorem feedbackReceived_of_skip (E : FloatEnv) (c : Controller) (effect : ff_effect)
    (gain : Nat) (hs : ¬ (effect.type = FF_RUMBLE ∧ (c.rumbling = true ∨ gain ≠ 0))) :
    feedbackReceived E c effect gain = (c, []) := by
  unfold feedbackReceived
  by_cases ht : effect.type = FF_RUMBLE
  · rw [if_neg (by simpa using ht), if_pos]
    have : ¬ (c.rumbling = true ∨ gain ≠ 0) := fun h => hs ⟨ht, h⟩
    push_neg at this
    simp [this.1, this.2]
  · rw [if_pos ht]

/-- C1: `feedbackReceived` passes a command to `performRumble` exactly when the effect
kind is rumble and (the session is rumbling or the gain is non-zero); it then passes
exactly one command, and otherwise it leaves the session, hence the rumbling flag,
as it was. -/
theorem feedbackReceived_sends_iff (E : FloatEnv) (c : Controller) (effect : ff_effect)
    (gain : Nat) :
    ((feedbackReceived E c effect gain).2 ≠ [] ↔
        (effect.type = FF_RUMBLE ∧ (c.rumbling = true ∨ gain ≠ 0))) ∧
    ((feedbackReceived E c effect gain).2 ≠ [] →
        (feedbackReceived E c effect gain).2.length = 1) ∧
    ((feedbackReceived E c effect gain).2 = [] →
        (feedbackReceived E c effect gain).1.rumbling = c.rumbling) := by
  by_cases hs : effect.type = FF_RUMBLE ∧ (c.rumbling = true ∨ gain ≠ 0)
  · rw [feedbackReceived_of_send E c effect gain hs.1 hs.2]
    simp [hs]
  · rw [feedbackReceived_of_skip E c effect gain hs]
    simp [hs]

/-- C2 (as stated) fails: with weak magnitude 0, strong magnitude `0xffff` and gain
`0xffff` the single command sent has left power 255 and right power 0, whereas the
cross-mapped formula gives left `= weak_magnitude * gain / 0xFFFFFF = 0` and right
`= strong_magnitude * gain / 0xFFFFFF = 255`. -/
theorem feedbackReceived_cross_mapping_fails :
    ∃ cmd : RumbleData,
      (feedbackReceived exactEnv {} strongOnlyEffect 0xffff).2 = [cmd] ∧
      cmd.left = 255 ∧ cmd.right = 0 ∧
      ¬ (cmd.left = (strongOnlyEffect.weak_magnitude * 0xffff / 0xffffff) % 256 ∧
         cmd.right = (strongOnlyEffect.strong_magnitude * 0xffff / 0xffffff) % 256) := by
  refine ⟨{ motors := RUMBLE_ALL, left := 255, right := 0, duration := 0xff }, ?_, ?_, ?_, ?_⟩
  · decide
  · rfl
  · rfl
  · decide

/-- C2 (amended): whenever `feedbackReceived` sends, for 16-bit magnitudes and gain, it
sends one command that targets all motors with duration `0xFF`, whose left-motor power
is `strong_magnitude * gain / 0xFFFFFF` and whose right-motor power is
`weak_magnitude * gain / 0xFFFFFF` (integer division, truncated to 8 bits): the
magnitudes are not cross-mapped. -/
theorem feedbackReceived_command (E : FloatEnv) (c : Controller) (effect : ff_effect)
    (gain : Nat) (ht : effect.type = FF_RUMBLE) (hs : c.rumbling = true ∨ gain ≠ 0)
    (hw : effect.weak_magnitude < 2 ^ 16) (hst : effect.strong_magnitude < 2 ^ 16)
    (hg : gain < 2 ^ 16) :
    ∃ cmd : RumbleData,
      (feedbackReceived E c effect gain).2 = [cmd] ∧
      cmd.motors = RUMBLE_ALL ∧ cmd.duration = 0xff ∧
      cmd.left = (effect.strong_magnitude * gain / 0xffffff) % 256 ∧
      cmd.right = (effect.weak_magnitude * gain / 0xffffff) % 256 := by
  have hl : rumblePower effect.strong_magnitude gain
      = (effect.strong_magnitude * gain / 0xffffff) % 256 := by
    have h := rumblePower_of_u16 _ _ hst hg
    rw [← h]
    unfold rumblePower
    rw [Nat.mod_mod]
  have hr : rumblePower effect.weak_magnitude gain
      = (effect.weak_magnitude * gain / 0xffffff) % 256 := by
    have h := rumblePower_of_u16 _ _ hw hg
    rw [← h]
    unfold rumblePower
    rw [Nat.mod_mod]
  refine ⟨buildRumble E effect gain, ?_, ?_⟩
  · rw [feedbackReceived_of_send E c effect gain ht hs]
  · unfold buildRumble
    split <;> exact ⟨rfl, rfl, hl, hr⟩

/-- Witness for C2 (amended): direction `0x8000`, weak magnitude `0x4000`, strong
magnitude `0xffff`, gain `0xffff`, session not rumbling. -/
theorem feedbackReceived_command_witness :
    ∃ cmd : RumbleData,
      (feedbackReceived exactEnv {} forwardEffect 0xffff).2 = [cmd] ∧
      cmd.motors = RUMBLE_ALL ∧ cmd.duration = 0xff ∧
      cmd.left = (forwardEffect.strong_magnitude * 0xffff / 0xffffff) % 256 ∧
      cmd.right = (forwardEffect.weak_magnitude * 0xffff / 0xffffff) % 256 :=
  feedbackReceived_command exactEnv {} forwardEffect 0xffff rfl (Or.inr (by decide))
    (by decide) (by decide) (by decide)

/-- C3: for a rumble effect of any magnitudes and any direction, `feedbackReceived` with
gain 0 on a rumbling session sends exactly one command, whose left, right, trigger-left
and trigger-right powers are all zero, and leaves the session not rumbling. The only
floating point fact used is that zero converts to the `float` zero. -/
theorem feedbackReceived_stop (E : FloatEnv) (hz : E.toFloat 0 = 0) (c : Controller)
    (effect : ff_effect) (ht : effect.type = FF_RUMBLE) (hr : c.rumbling = true) :
    ∃ cmd : RumbleData,
      feedbackReceived E c effect 0 = ({ c with rumbling := false }, [cmd]) ∧
      cmd.left = 0 ∧ cmd.right = 0 ∧ cmd.triggerLeft = 0 ∧ cmd.triggerRight = 0 := by
  refine ⟨buildRumble E effect 0, ?_, ?_⟩
  · rw [feedbackReceived_of_send E c effect 0 ht (Or.inl hr)]
    rfl
  · unfold buildRumble
    simp only [rumblePower_zero_gain]
    split
    · exact ⟨rfl, rfl, triggerPower_zero_power E hz _, triggerPower_zero_power E hz _⟩
    · exact ⟨rfl, rfl, rfl, rfl⟩

/-- Witness for C3: a rumbling session, direction `0x8000` (inside the upper half),
non-zero magnitudes. -/
theorem feedbackReceived_stop_witness :
    exactEnv.toFloat 0 = 0 ∧ forwardEffect.direction = 0x8000 ∧
    ∃ cmd : RumbleData,
      feedbackReceived exactEnv { rumbling := true } forwardEffect 0
        = ({ rumbling := false }, [cmd]) ∧
      cmd.left = 0 ∧ cmd.right = 0 ∧ cmd.triggerLeft = 0 ∧ cmd.triggerRight = 0 :=
  ⟨rfl, rfl, feedbackReceived_stop exactEnv rfl { rumbling := true } forwardEffect rfl rfl⟩

/-- C4: whenever `feedbackReceived` sends a command, the rumbling flag afterwards is
`gain > 0`, whatever the flag was before, whatever the magnitudes and whatever the
computed motor powers. -/
theorem feedbackReceived_flag (E : FloatEnv) (c : Controller) (effect : ff_effect)
    (gain : Nat) (h : (feedbackReceived E c effect gain).2 ≠ []) :
    (feedbackReceived E c effect gain).1.rumbling = decide (gain > 0) := by
  by_cases hs : effect.type = FF_RUMBLE ∧ (c.rumbling = true ∨ gain ≠ 0)
  · rw [feedbackReceived_of_send E c effect gain hs.1 hs.2]
  · rw [feedbackReceived_of_skip E c effect gain hs] at h
    exact absurd rfl h

/-- Witness for C4: a rumbling session receiving gain 0 sends and ends not rumbling. -/
theorem feedbackReceived_flag_witness :
    (feedbackReceived exactEnv { rumbling := true } sideEffect 0).2 ≠ [] ∧
    (feedbackReceived exactEnv { rumbling := true } sideEffect 0).1.rumbling
      = decide (0 > 0) :=
  ⟨by decide, feedbackReceived_flag exactEnv { rumbling := true } sideEffect 0 (by decide)⟩

/-- C5: when the direction is outside `[0x4000, 0xC000]`, every command
`feedbackReceived` sends has trigger-left and trigger-right power zero. -/
theorem feedbackReceived_no_trigger (E : FloatEnv) (c : Controller) (effect : ff_effect)
    (gain : Nat) (hd : effect.direction < 0x4000 ∨ 0xc000 < effect.direction) :
    ∀ cmd ∈ (feedbackReceived E c effect gain).2,
      cmd.triggerLeft = 0 ∧ cmd.triggerRight = 0 := by
  intro cmd hcmd
  by_cases hs : effect.type = FF_RUMBLE ∧ (c.rumbling = true ∨ gain ≠ 0)
  · rw [feedbackReceived_of_send E c effect gain hs.1 hs.2] at hcmd
    have hc : cmd = buildRumble E effect gain := by simpa using hcmd
    subst hc
    unfold buildRumble
    rw [if_neg (by omega)]
    exact ⟨rfl, rfl⟩
  · rw [feedbackReceived_of_skip E c effect gain hs] at hcmd
    simp at hcmd

/-- Witness for C5: direction `0x2000` with full gain; one command is sent and its
trigger powers are zero. -/
theorem feedbackReceived_no_trigger_witness :
    (feedbackReceived exactEnv {} sideEffect 0xffff).2.length = 1 ∧
    ∀ cmd ∈ (feedbackReceived exactEnv {} sideEffect 0xffff).2,
      cmd.triggerLeft = 0 ∧ cmd.triggerRight = 0 :=
  ⟨by decide, feedbackReceived_no_trigger exactEnv {} sideEffect 0xffff (Or.inl (by decide))⟩

/-! ## Theorems about `Controller::inputReceived` -/

theorem complement_eq (y : Int) : ~~~y = -y - 1 := by
  cases y with
  | ofNat n =>
    show Int.negSucc n = _
    rw [Int.negSucc_eq]
    simp only [Int.ofNat_eq_coe]
    omega
  | negSucc n =>
    show Int.ofNat n = _
    rw [Int.negSucc_eq]
    simp only [Int.ofNat_eq_coe]
    omega

theorem toI16_complement (y : Int) (h : -32768 ≤ y ∧ y ≤ 32767) :
    toI16 (0xFFFF - toU16 y) = -y - 1 := by
  unfold toI16 toU16
  split <;> omega

theorem axisState_inputReceived (c : Controller) (input : InputData) :
    axisState (inputReceived c input).inputDevice .ABS_X = some input.stickLeftX ∧
    axisState (inputReceived c input).inputDevice .ABS_RX = some input.stickRightX ∧
    axisState (inputReceived c input).inputDevice .ABS_Y = some (~~~input.stickLeftY) ∧
    axisState (inputReceived c input).inputDevice .ABS_RY = some (~~~input.stickRightY) ∧
    axisState (inputReceived c input).inputDevice .ABS_HAT0X
      = some (bit input.buttons.dpadRight - bit input.buttons.dpadLeft) ∧
    axisState (inputReceived c input).inputDevice .ABS_HAT0Y
      = some (bit input.buttons.dpadDown - bit input.buttons.dpadUp) := by
  simp [axisState, inputReceived, List.foldl_append]

theorem inputReceived_ends_with_report (c : Controller) (input : InputData) :
    (inputReceived c input).inputDevice.getLast? = some .report := by
  simp [inputReceived, List.getLast?_append]

/-- C7: for every input packet whose stick-Y values are signed 16-bit, the state
`inputReceived` reports has ABS_Y and ABS_RY equal to the 16-bit complement of the raw
value, which is `-y - 1` and lies in `[-32768, 32767]`, and has ABS_X and ABS_RX equal
to the raw values; raw left-stick Y `0x1234` is reported as `0xEDCB` read as signed
16-bit, i.e. -4661, and an all-zero packet reports -1 on ABS_Y, ABS_RY and 0 on ABS_X,
ABS_RX. -/
theorem inputReceived_sticks (c : Controller) (input : InputData)
    (hly : -32768 ≤ input.stickLeftY ∧ input.stickLeftY ≤ 32767)
    (hry : -32768 ≤ input.stickRightY ∧ input.stickRightY ≤ 32767) :
    ((inputReceived c input).inputDevice.getLast? = some .report ∧
      axisState (inputReceived c input).inputDevice .ABS_Y
        = some (toI16 (0xFFFF - toU16 input.stickLeftY)) ∧
      axisState (inputReceived c input).inputDevice .ABS_RY
        = some (toI16 (0xFFFF - toU16 input.stickRightY)) ∧
      axisState (inputReceived c input).inputDevice .ABS_Y = some (-input.stickLeftY - 1) ∧
      axisState (inputReceived c input).inputDevice .ABS_RY = some (-input.stickRightY - 1) ∧
      (-32768 ≤ -input.stickLeftY - 1 ∧ -input.stickLeftY - 1 ≤ 32767) ∧
      (-32768 ≤ -input.stickRightY - 1 ∧ -input.stickRightY - 1 ≤ 32767) ∧
      axisState (inputReceived c input).inputDevice .ABS_X = some input.stickLeftX ∧
      axisState (inputReceived c input).inputDevice .ABS_RX = some input.stickRightX) ∧
    (axisState (inputReceived c { stickLeftY := 0x1234 }).inputDevice .ABS_Y
        = some (toI16 0xEDCB) ∧ toI16 0xEDCB = -4661) ∧
    (axisState (inputReceived c {}).inputDevice .ABS_Y = some (-1) ∧
      axisState (inputReceived c {}).inputDevice .ABS_RY = some (-1) ∧
      axisState (inputReceived c {}).inputDevice .ABS_X = some 0 ∧
      axisState (inputReceived c {}).inputDevice .ABS_RX = some 0) := by
  obtain ⟨hx, hrx, hy, hry', -, -⟩ := axisState_inputReceived c input
  have h0 := axisState_inputReceived c {}
  have h1 := axisState_inputReceived c { stickLeftY := 0x1234 }
  refine ⟨⟨inputReceived_ends_with_report c input, ?_, ?_, ?_, ?_, ?_, ?_, hx, hrx⟩, ⟨?_, ?_⟩,
    ⟨?_, ?_, ?_, ?_⟩⟩
  · rw [hy, toI16_complement _ hly, complement_eq]
  · rw [hry', toI16_complement _ hry, complement_eq]
  · rw [hy, complement_eq]
  · rw [hry', complement_eq]
  · omega
  · omega
  · rw [h1.2.2.1]
    decide
  · decide
  · rw [h0.2.2.1]
    decide
  · rw [h0.2.2.2.1]
    decide
  · exact h0.1
  · exact h0.2.1

/-- Witness for C7: a packet with left stick Y `0x1234` and right stick Y -32768 on a
fresh session; ABS_Y is -4661 and ABS_RY is 32767. -/
theorem inputReceived_sticks_witness :
    axisState (inputReceived {} samplePacket).inputDevice .ABS_Y = some (-4661) ∧
    axisState (inputReceived {} samplePacket).inputDevice .ABS_RY = some 32767 ∧
    axisState (inputReceived {} samplePacket).inputDevice .ABS_X = some 7 ∧
    axisState (inputReceived {} samplePacket).inputDevice .ABS_RX = some (-9) :=
  have h := (inputReceived_sticks {} samplePacket (by decide) (by decide)).1
  ⟨h.2.2.2.1, h.2.2.2.2.1, h.2.2.2.2.2.2.2.1, h.2.2.2.2.2.2.2.2⟩

/-- C8: for every input packet, the state `inputReceived` reports has ABS_HAT0X equal to
`dpadRight - dpadLeft` and ABS_HAT0Y equal to `dpadDown - dpadUp`; each value is -1, 0
or 1 and lies in the range `deviceAnnounced` registers for the two axes, which is
`[-1, 1]`; with `dpadRight` set and `dpadLeft` clear the horizontal axis is 1, with both
set it is 0. -/
theorem inputReceived_dpad (c : Controller) (input : InputData) (c0 : Controller)
    (announce : AnnounceData) :
    (inputReceived c input).inputDevice.getLast? = some .report ∧
    axisState (inputReceived c input).inputDevice .ABS_HAT0X
      = some (bit input.buttons.dpadRight - bit input.buttons.dpadLeft) ∧
    axisState (inputReceived c input).inputDevice .ABS_HAT0Y
      = some (bit input.buttons.dpadDown - bit input.buttons.dpadUp) ∧
    (bit input.buttons.dpadRight - bit input.buttons.dpadLeft) ∈ ({-1, 0, 1} : Set Int) ∧
    (bit input.buttons.dpadDown - bit input.buttons.dpadUp) ∈ ({-1, 0, 1} : Set Int) ∧
    axisConfig (deviceAnnounced c0 announce).inputDevice .ABS_HAT0X = some dpadConfig ∧
    axisConfig (deviceAnnounced c0 announce).inputDevice .ABS_HAT0Y = some dpadConfig ∧
    dpadConfig.minimum = -1 ∧ dpadConfig.maximum = 1 ∧
    (dpadConfig.minimum ≤ bit input.buttons.dpadRight - bit input.buttons.dpadLeft ∧
      bit input.buttons.dpadRight - bit input.buttons.dpadLeft ≤ dpadConfig.maximum) ∧
    (dpadConfig.minimum ≤ bit input.buttons.dpadDown - bit input.buttons.dpadUp ∧
      bit input.buttons.dpadDown - bit input.buttons.dpadUp ≤ dpadConfig.maximum) ∧
    (input.buttons.dpadRight = true → input.buttons.dpadLeft = false →
      axisState (inputReceived c input).inputDevice .ABS_HAT0X = some 1) ∧
    (input.buttons.dpadRight = true → input.buttons.dpadLeft = true →
      axisState (inputReceived c input).inputDevice .ABS_HAT0X = some 0) := by
  obtain ⟨-, -, -, -, hx, hy⟩ := axisState_inputReceived c input
  refine ⟨inputReceived_ends_with_report c input, hx, hy, ?_, ?_, ?_, ?_, rfl, rfl, ?_, ?_,
    ?_, ?_⟩
  · cases input.buttons.dpadRight <;> cases input.buttons.dpadLeft <;> simp [bit]
  · cases input.buttons.dpadDown <;> cases input.buttons.dpadUp <;> simp [bit]
  · simp [axisConfig, deviceAnnounced, List.foldl_append]
  · simp [axisConfig, deviceAnnounced, List.foldl_append]
  · cases input.buttons.dpadRight <;> cases input.buttons.dpadLeft <;> simp [bit, dpadConfig]
  · cases input.buttons.dpadDown <;> cases input.buttons.dpadUp <;> simp [bit, dpadConfig]
  · intro hr hl
    rw [hx, hr, hl]
    rfl
  · intro hr hl
    rw [hx, hr, hl]
    rfl

/-! ## Theorems about `Dongle::sendControllerPacket` -/

theorem padding_four_lt (n : Nat) : Bytes.padding 4 n < 4 := by
  unfold Bytes.padding
  omega

theorem dataPadding_eq (packet : Bytes) : dataPadding packet = (4 - packet.length % 4) % 4 := by
  unfold dataPadding Bytes.padding
  omega

theorem framePadding_eq (L : Layout) :
    framePadding L = (4 - (L.sizeofTxWi + L.sizeofWlanFrame + L.sizeofQosFrame) % 4) % 4 := by
  unfold framePadding headerLength Bytes.padding
  omega

theorem controllerFrame_eq (L : Layout) (macAddress : Bytes) (wcid : Nat)
    (address packet : Bytes) :
    controllerFrame L macAddress wcid address packet =
      L.rawU32 (bswap32 (wcidIndex wcid)) ++ List.replicate 4 0
        ++ L.rawTxWi (buildTxWi L packet)
        ++ L.rawWlanFrame (buildWlanFrame L macAddress address)
        ++ L.rawQosFrame {} ++ List.replicate (framePadding L) 0
        ++ packet ++ List.replicate (dataPadding packet) 0 := by
  simp [controllerFrame, Bytes.append, Bytes.pad]

theorem controllerFrame_length (L : Layout) (hL : L.WellSized) (macAddress : Bytes)
    (wcid : Nat) (address packet : Bytes) :
    (controllerFrame L macAddress wcid address packet).length =
      8 + (L.sizeofTxWi + L.sizeofWlanFrame + L.sizeofQosFrame) + framePadding L
        + packet.length + dataPadding packet := by
  obtain ⟨h32, htx, hwl, hqs⟩ := hL
  rw [controllerFrame_eq]
  simp only [List.length_append, List.length_replicate, h32, htx, hwl, hqs]
  omega

theorem exampleLayout_wellSized : exampleLayout.WellSized := by
  refine ⟨fun v => rfl, fun t => rfl, fun w => ?_, fun q => rfl⟩
  simp [exampleLayout, address6]

/-- C9: for every payload and all header sizes, `sendControllerPacket` computes
`dataPadding = (4 - L % 4) % 4` for the payload length `L` and
`framePadding = (4 - H % 4) % 4` for `H` the sum of the three header sizes, and the
buffer it hands to `sendCommand` has length `8 + H + framePadding + L + dataPadding`,
a multiple of 4. -/
theorem controllerFrame_aligned (L : Layout) (hL : L.WellSized) (macAddress : Bytes)
    (wcid : Nat) (address packet : Bytes) :
    dataPadding packet = (4 - packet.length % 4) % 4 ∧
    framePadding L = (4 - (L.sizeofTxWi + L.sizeofWlanFrame + L.sizeofQosFrame) % 4) % 4 ∧
    (controllerFrame L macAddress wcid address packet).length =
      8 + (L.sizeofTxWi + L.sizeofWlanFrame + L.sizeofQosFrame) + framePadding L
        + packet.length + dataPadding packet ∧
    (controllerFrame L macAddress wcid address packet).length % 4 = 0 ∧
    ∀ sendCommand : Nat → Bytes → Bool,
      sendControllerPacket L macAddress sendCommand wcid address packet =
        sendCommand L.CMD_PACKET_TX (controllerFrame L macAddress wcid address packet) := by
  refine ⟨dataPadding_eq packet, framePadding_eq L,
    controllerFrame_length L hL macAddress wcid address packet, ?_, ?_⟩
  · rw [controllerFrame_length L hL, dataPadding_eq, framePadding_eq]
    omega
  · intro sendCommand
    unfold sendControllerPacket
    cases sendCommand L.CMD_PACKET_TX (controllerFrame L macAddress wcid address packet) <;> rfl

/-- Witness for C9: header sizes 20, 24 and 2 and a three-byte payload give frame
padding 2, data padding 1 and a 60-byte frame. -/
theorem controllerFrame_aligned_witness :
    exampleLayout.WellSized ∧
    dataPadding [0xaa, 0xbb, 0xcc] = 1 ∧ framePadding exampleLayout = 2 ∧
    (controllerFrame exampleLayout [1, 2, 3, 4, 5, 6] 3 [10, 11, 12, 13, 14, 15]
      [0xaa, 0xbb, 0xcc]).length = 60 ∧
    (controllerFrame exampleLayout [1, 2, 3, 4, 5, 6] 3 [10, 11, 12, 13, 14, 15]
      [0xaa, 0xbb, 0xcc]).length % 4 = 0 :=
  have h := controllerFrame_aligned exampleLayout exampleLayout_wellSized [1, 2, 3, 4, 5, 6] 3
    [10, 11, 12, 13, 14, 15] [0xaa, 0xbb, 0xcc]
  ⟨exampleLayout_wellSized, h.1, h.2.1, h.2.2.1, h.2.2.2.1⟩

theorem wcidIndex_eq (wcid : Nat) (hw : 1 ≤ wcid ∧ wcid < 256) : wcidIndex wcid = wcid - 1 := by
  unfold wcidIndex
  omega

theorem bswap32_small (v : Nat) (hv : v < 256) : bswap32 v = v * 2 ^ 24 := by
  unfold bswap32
  omega

theorem controllerFrame_payload (L : Layout) (hL : L.WellSized) (macAddress : Bytes)
    (wcid : Nat) (address packet : Bytes) :
    ((controllerFrame L macAddress wcid address packet).drop
        (8 + (L.sizeofTxWi + L.sizeofWlanFrame + L.sizeofQosFrame) + framePadding L)).take
      packet.length = packet := by
  obtain ⟨h32, htx, hwl, hqs⟩ := hL
  rw [controllerFrame_eq]
  have hlen : (L.rawU32 (bswap32 (wcidIndex wcid)) ++ List.replicate 4 0
      ++ L.rawTxWi (buildTxWi L packet)
      ++ L.rawWlanFrame (buildWlanFrame L macAddress address)
      ++ L.rawQosFrame {} ++ List.replicate (framePadding L) 0).length
      = 8 + (L.sizeofTxWi + L.sizeofWlanFrame + L.sizeofQosFrame) + framePadding L := by
    simp only [List.length_append, List.length_replicate, h32, htx, hwl, hqs]
    omega
  rw [List.append_assoc _ packet, ← hlen, List.drop_left, List.take_left]

theorem sendControllerPacket_eq (L : Layout) (macAddress : Bytes)
    (sendCommand : Nat → Bytes → Bool) (wcid : Nat) (address packet : Bytes) :
    sendControllerPacket L macAddress sendCommand wcid address packet =
      sendCommand L.CMD_PACKET_TX (controllerFrame L macAddress wcid address packet) := by
  unfold sendControllerPacket
  cases sendCommand L.CMD_PACKET_TX (controllerFrame L macAddress wcid address packet) <;> rfl

theorem sendControllerPacket_unique (L : Layout) (macAddress : Bytes) (wcid : Nat)
    (address packet : Bytes) (command : Nat) (out : Bytes)
    (h : ∀ sendCommand : Nat → Bytes → Bool,
      sendControllerPacket L macAddress sendCommand wcid address packet
        = sendCommand command out) :
    command = L.CMD_PACKET_TX ∧ out = controllerFrame L macAddress wcid address packet := by
  have h1 := h (fun c b =>
    decide (c = L.CMD_PACKET_TX ∧ b = controllerFrame L macAddress wcid address packet))
  rw [sendControllerPacket_eq] at h1
  simpa using h1

/-- C10: for every client identifier `1 ≤ wcid < 256`, address and payload,
`sendControllerPacket` calls the transport's `sendCommand` with the command
`CMD_PACKET_TX` and a buffer that is, in this order, the raw 32-bit value
`bswap32 (wcid - 1)`, four zero bytes, the transmission descriptor, the link-layer
header, the QoS header, `framePadding` zero bytes, the payload unchanged and
`dataPadding` zero bytes, and returns the transport's answer; no other command or buffer
fits every transport. That buffer is the assembled `controllerFrame`, and the payload
sits in it at offset `8 + H + framePadding`, which is a multiple of 4 and does not depend
on the payload. -/
theorem sendControllerPacket_layout (L : Layout) (hL : L.WellSized) (macAddress : Bytes)
    (wcid : Nat) (hw : 1 ≤ wcid ∧ wcid < 256) (address packet : Bytes) :
    (∀ sendCommand : Nat → Bytes → Bool,
      sendControllerPacket L macAddress sendCommand wcid address packet =
        sendCommand L.CMD_PACKET_TX
          (L.rawU32 (bswap32 (wcid - 1)) ++ List.replicate 4 0
            ++ L.rawTxWi (buildTxWi L packet)
            ++ L.rawWlanFrame (buildWlanFrame L macAddress address)
            ++ L.rawQosFrame {} ++ List.replicate (framePadding L) 0
            ++ packet ++ List.replicate (dataPadding packet) 0)) ∧
    (∀ (command : Nat) (out : Bytes),
      (∀ sendCommand : Nat → Bytes → Bool,
        sendControllerPacket L macAddress sendCommand wcid address packet
          = sendCommand command out) →
      command = L.CMD_PACKET_TX ∧
      out = L.rawU32 (bswap32 (wcid - 1)) ++ List.replicate 4 0
        ++ L.rawTxWi (buildTxWi L packet)
        ++ L.rawWlanFrame (buildWlanFrame L macAddress address)
        ++ L.rawQosFrame {} ++ List.replicate (framePadding L) 0
        ++ packet ++ List.replicate (dataPadding packet) 0) ∧
    controllerFrame L macAddress wcid address packet =
      L.rawU32 (bswap32 (wcid - 1)) ++ List.replicate 4 0
        ++ L.rawTxWi (buildTxWi L packet)
        ++ L.rawWlanFrame (buildWlanFrame L macAddress address)
        ++ L.rawQosFrame {} ++ List.replicate (framePadding L) 0
        ++ packet ++ List.replicate (dataPadding packet) 0 ∧
    bswap32 (wcid - 1) = (wcid - 1) * 2 ^ 24 ∧
    ((controllerFrame L macAddress wcid address packet).drop
        (8 + (L.sizeofTxWi + L.sizeofWlanFrame + L.sizeofQosFrame) + framePadding L)).take
      packet.length = packet ∧
    (8 + (L.sizeofTxWi + L.sizeofWlanFrame + L.sizeofQosFrame) + framePadding L) % 4 = 0 := by
  have hframe : controllerFrame L macAddress wcid address packet =
      L.rawU32 (bswap32 (wcid - 1)) ++ List.replicate 4 0
        ++ L.rawTxWi (buildTxWi L packet)
        ++ L.rawWlanFrame (buildWlanFrame L macAddress address)
        ++ L.rawQosFrame {} ++ List.replicate (framePadding L) 0
        ++ packet ++ List.replicate (dataPadding packet) 0 := by
    rw [controllerFrame_eq, wcidIndex_eq wcid hw]
  refine ⟨?_, ?_, hframe, bswap32_small (wcid - 1) (by omega),
    controllerFrame_payload L hL macAddress wcid address packet, ?_⟩
  · intro sendCommand
    rw [sendControllerPacket_eq, hframe]
  · intro command out h
    rw [← hframe]
    exact sendControllerPacket_unique L macAddress wcid address packet command out h
  · rw [framePadding_eq]
    omega

/-- Witness for C10: on a little-endian host, with `wcid = 3` and a three-byte payload,
a transport that accepts exactly the command `CMD_PACKET_TX` with a 60-byte buffer that
starts with the bytes `0, 0, 0, 2, 0, 0, 0, 0` and carries the payload at offset 56
accepts the call. -/
theorem sendControllerPacket_layout_witness :
    exampleLayout.WellSized ∧
    sendControllerPacket exampleLayout [1, 2, 3, 4, 5, 6]
      (fun command out => decide (command = exampleLayout.CMD_PACKET_TX ∧ out.length = 60 ∧
        out.take 8 = [0, 0, 0, 2, 0, 0, 0, 0] ∧ (out.drop 56).take 3 = [0xaa, 0xbb, 0xcc]))
      3 [10, 11, 12, 13, 14, 15] [0xaa, 0xbb, 0xcc] = true ∧
    ((controllerFrame exampleLayout [1, 2, 3, 4, 5, 6] 3 [10, 11, 12, 13, 14, 15]
      [0xaa, 0xbb, 0xcc]).drop 56).take 3 = [0xaa, 0xbb, 0xcc] :=
  have h := sendControllerPacket_layout exampleLayout exampleLayout_wellSized
    [1, 2, 3, 4, 5, 6] 3 (by decide) [10, 11, 12, 13, 14, 15] [0xaa, 0xbb, 0xcc]
  ⟨exampleLayout_wellSized, (h.1 _).trans (by decide), h.2.2.2.2.1⟩

/-! ## The directional decomposition at direction `0x8000`

The floating point computation is followed operation by operation under the hypotheses
of `FloatEnv.Accurate`, and compared with the sine and cosine at the exact angle
`2π (0x8000 / 0xFFFF - 0.125) = 3π/4 + π/65535`. The arithmetic is isolated in lemmas
about plain rational or real numbers. -/

theorem round_in (f : ℚ → ℚ) (k : ℕ)
    (h : ∀ x : ℚ, 1 / 8 ≤ |x| → |x| ≤ 65536 → |f x - x| ≤ |x| / 2 ^ k)
    (x lo hi lo' hi' : ℚ) (hlo : 1 / 8 ≤ lo) (hx : lo ≤ x) (hx' : x ≤ hi) (hhi : hi ≤ 65536)
    (h1 : lo' ≤ lo - hi / 2 ^ k) (h2 : hi + hi / 2 ^ k ≤ hi') : lo' ≤ f x ∧ f x ≤ hi' := by
  have habs : |x| = x := abs_of_nonneg (le_trans (by norm_num) (le_trans hlo hx))
  have h0 := h x (by rw [habs]; exact le_trans hlo hx) (by rw [habs]; exact le_trans hx' hhi)
  rw [habs, abs_le] at h0
  have h3 : x / 2 ^ k ≤ hi / 2 ^ k := div_le_div_of_nonneg_right hx' (by positivity)
  constructor
  · linarith [h0.1]
  · linarith [h0.2]

theorem quotient_in (x1 x2 a1 b1 a2 b2 lo hi : ℚ) (h1 : a1 ≤ x1 ∧ x1 ≤ b1)
    (h2 : a2 ≤ x2 ∧ x2 ≤ b2) (ha2 : 0 < a2) (hlo0 : 0 ≤ lo) (hhi0 : 0 ≤ hi)
    (hlo : lo * b2 ≤ a1) (hhi : b1 ≤ hi * a2) : lo ≤ x1 / x2 ∧ x1 / x2 ≤ hi := by
  have hx2 : 0 < x2 := lt_of_lt_of_le ha2 h2.1
  constructor
  · rw [le_div_iff₀ hx2]
    exact le_trans (le_trans (mul_le_mul_of_nonneg_left h2.2 hlo0) hlo) h1.1
  · rw [div_le_iff₀ hx2]
    exact le_trans (le_trans h1.2 hhi) (mul_le_mul_of_nonneg_left h2.1 hhi0)

theorem angle_bounds (E : FloatEnv) (hE : E.Accurate 0x8000) :
    (3750075150 : ℚ) / 10 ^ 10 ≤ E.angle 0x8000 ∧ E.angle 0x8000 ≤ 3750077440 / 10 ^ 10 := by
  obtain ⟨hF, hD, -, -, -⟩ := hE
  have h1 := round_in E.toFloat 24 hF 32768 32768 32768 (32768 - 1 / 500) (32768 + 1 / 500)
    (by norm_num) le_rfl le_rfl (by norm_num) (by norm_num) (by norm_num)
  have h2 := round_in E.toFloat 24 hF 65535 65535 65535 (65535 - 1 / 250) (65535 + 1 / 250)
    (by norm_num) le_rfl le_rfl (by norm_num) (by norm_num) (by norm_num)
  have hr := quotient_in _ _ _ _ _ _ (5000075675 / 10 ^ 10) (5000076915 / 10 ^ 10) h1 h2
    (by norm_num) (by norm_num) (by norm_num) (by norm_num) (by norm_num)
  have h3 := round_in E.toFloat 24 hF _ _ _ (5000075375 / 10 ^ 10) (5000077215 / 10 ^ 10)
    (by norm_num) hr.1 hr.2 (by norm_num) (by norm_num) (by norm_num)
  have h4 := round_in E.toDouble 53 hD _ _ _ (3750075374 / 10 ^ 10) (3750077216 / 10 ^ 10)
    (by norm_num) (sub_le_sub_right h3.1 0.125) (sub_le_sub_right h3.2 0.125)
    (by norm_num) (by norm_num) (by norm_num)
  have h5 := round_in E.toFloat 24 hF _ _ _ (3750075150 / 10 ^ 10) (3750077440 / 10 ^ 10)
    (by norm_num) h4.1 h4.2 (by norm_num) (by norm_num) (by norm_num)
  simpa only [FloatEnv.angle, Nat.cast_ofNat] using h5

theorem phase_real (p M P a ph : ℝ) (hp1 : 3.14 < p) (hp2 : p < 3.15)
    (hM : |M - p| ≤ 1 / 10 ^ 15) (hP : |P - 2 * M| ≤ 2 * M / 2 ^ 53)
    (ha1 : 3750075150 / 10 ^ 10 ≤ a) (ha2 : a ≤ 3750077440 / 10 ^ 10)
    (hph : |ph - P * a| ≤ P * a / 2 ^ 53) :
    |ph - 2 * p * (32768 / 65535 - 0.125)| ≤ 73 / 10 ^ 8 := by
  obtain ⟨hM1, hM2⟩ := abs_le.mp hM
  obtain ⟨hPa, hPb⟩ := abs_le.mp hP
  obtain ⟨hph1, hph2⟩ := abs_le.mp hph
  have hP1 : 2 * p - 3 / 10 ^ 15 ≤ P := by linarith only [hM1, hPa, hp2, hM2]
  have hP2 : P ≤ 2 * p + 3 / 10 ^ 15 := by linarith only [hM2, hPb, hp2]
  have hP0 : 0 ≤ P := by linarith only [hP1, hp1]
  have hu : P * a ≤ (2 * p + 3 / 10 ^ 15) * (3750077440 / 10 ^ 10) :=
    mul_le_mul hP2 ha2 (le_trans (by norm_num) ha1) (by linarith only [hp1])
  have hl : (2 * p - 3 / 10 ^ 15) * (3750075150 / 10 ^ 10) ≤ P * a :=
    mul_le_mul hP1 ha1 (by norm_num) hP0
  have h3 : P * a ≤ 3 := by linarith only [hu, hp2]
  have h4 : P * a / 2 ^ 53 ≤ 3 / 2 ^ 53 := div_le_div_of_nonneg_right h3 (by norm_num)
  have e : (32768 / 65535 - 0.125 : ℝ) = 196609 / 524280 := by norm_num
  rw [e, abs_le]
  constructor
  · linarith only [hph1, hl, h4, hp1, hp2]
  · linarith only [hph2, hu, h4, hp1, hp2]

theorem phase_error (E : FloatEnv) (hE : E.Accurate 0x8000) :
    |(E.phase 0x8000 : ℝ) - 2 * Real.pi * (32768 / 65535 - 0.125)| ≤ 73 / 10 ^ 8 := by
  have ha := angle_bounds E hE
  obtain ⟨-, hD, hM, -, -⟩ := hE
  have hpi1 := Real.pi_gt_d2
  have hpi2 := Real.pi_lt_d2
  -- the rational `M_PI` lies between 3 and 4
  obtain ⟨hMa, hMb⟩ := abs_le.mp hM
  have hMr1 : ((3 : ℚ) : ℝ) ≤ (E.M_PI : ℝ) := by
    rw [Rat.cast_ofNat]
    linarith only [hMa, hpi1]
  have hMr2 : (E.M_PI : ℝ) ≤ ((4 : ℚ) : ℝ) := by
    rw [Rat.cast_ofNat]
    linarith only [hMb, hpi2]
  have hM3 : (3 : ℚ) ≤ E.M_PI := (Rat.cast_le (K := ℝ)).mp hMr1
  have hM4 : E.M_PI ≤ (4 : ℚ) := (Rat.cast_le (K := ℝ)).mp hMr2
  -- `2 * M_PI` converted to double
  have h2M0 : (0 : ℚ) ≤ 2 * E.M_PI := by linarith only [hM3]
  have h2M : |2 * E.M_PI| = 2 * E.M_PI := abs_of_nonneg h2M0
  have hP := hD (2 * E.M_PI) (by rw [h2M]; linarith only [hM3])
    (by rw [h2M]; linarith only [hM4])
  have hPq := round_in E.toDouble 53 hD (2 * E.M_PI) 6 8 5 9 (by norm_num)
    (by linarith only [hM3]) (by linarith only [hM4]) (by norm_num) (by norm_num)
    (by norm_num)
  -- the product with the angle, converted to double
  have hP0 : (0 : ℚ) ≤ E.toDouble (2 * E.M_PI) := le_trans (by norm_num) hPq.1
  have ha0 : (0 : ℚ) ≤ E.angle 0x8000 := le_trans (by norm_num) ha.1
  have hprod1 : (1 : ℚ) ≤ E.toDouble (2 * E.M_PI) * E.angle 0x8000 :=
    le_trans (by norm_num) (mul_le_mul hPq.1 ha.1 (by norm_num) hP0)
  have hprod2 : E.toDouble (2 * E.M_PI) * E.angle 0x8000 ≤ 4 :=
    le_trans (mul_le_mul hPq.2 ha.2 ha0 (by norm_num)) (by norm_num)
  have hprod : |E.toDouble (2 * E.M_PI) * E.angle 0x8000|
      = E.toDouble (2 * E.M_PI) * E.angle 0x8000 :=
    abs_of_nonneg (le_trans (by norm_num) hprod1)
  have hph : |E.phase 0x8000 - E.toDouble (2 * E.M_PI) * E.angle 0x8000|
      ≤ |E.toDouble (2 * E.M_PI) * E.angle 0x8000| / 2 ^ 53 :=
    hD (E.toDouble (2 * E.M_PI) * E.angle 0x8000)
      (by rw [hprod]; exact le_trans (by norm_num) hprod1)
      (by rw [hprod]; exact le_trans hprod2 (by norm_num))
  rw [h2M] at hP
  rw [hprod] at hph
  have hPr := (Rat.cast_le (K := ℝ)).mpr hP
  have hphr := (Rat.cast_le (K := ℝ)).mpr hph
  have har1 := (Rat.cast_le (K := ℝ)).mpr ha.1
  have har2 := (Rat.cast_le (K := ℝ)).mpr ha.2
  push_cast at hPr hphr har1 har2
  exact phase_real Real.pi _ _ _ _ hpi1 hpi2 hM hPr har1 har2 hphr

theorem abs_sin_sub_sin_le (x y : ℝ) : |Real.sin x - Real.sin y| ≤ |x - y| := by
  rw [Real.sin_sub_sin, abs_mul, abs_mul]
  have h1 : |Real.sin ((x - y) / 2)| ≤ |(x - y) / 2| := Real.abs_sin_le_abs
  have h2 : |Real.cos ((x + y) / 2)| ≤ 1 := Real.abs_cos_le_one _
  have h3 : |(x - y) / 2| = |x - y| / 2 := by rw [abs_div]; norm_num
  have h4 : (0 : ℝ) ≤ |Real.sin ((x - y) / 2)| := abs_nonneg _
  have h5 : |(2 : ℝ)| = 2 := by norm_num
  rw [h5]
  calc 2 * |Real.sin ((x - y) / 2)| * |Real.cos ((x + y) / 2)|
      ≤ 2 * |Real.sin ((x - y) / 2)| * 1 :=
        mul_le_mul_of_nonneg_left h2 (by linarith only [h4])
    _ ≤ |x - y| := by linarith only [h1, h3]

theorem abs_cos_sub_cos_le (x y : ℝ) : |Real.cos x - Real.cos y| ≤ |x - y| := by
  rw [Real.cos_sub_cos, abs_mul, abs_mul]
  have h1 : |Real.sin ((x - y) / 2)| ≤ |(x - y) / 2| := Real.abs_sin_le_abs
  have h2 : |Real.sin ((x + y) / 2)| ≤ 1 := Real.abs_sin_le_one _
  have h3 : |(x - y) / 2| = |x - y| / 2 := by rw [abs_div]; norm_num
  have h4 : (0 : ℝ) ≤ |Real.sin ((x - y) / 2)| := abs_nonneg _
  have h5 : |(-2 : ℝ)| = 2 := by norm_num
  rw [h5]
  calc 2 * |Real.sin ((x + y) / 2)| * |Real.sin ((x - y) / 2)|
      ≤ 2 * 1 * |Real.sin ((x - y) / 2)| :=
        mul_le_mul_of_nonneg_right (by linarith only [h2]) h4
    _ ≤ |x - y| := by linarith only [h1, h3]

theorem sin_three_quarter : Real.sin (3 * Real.pi / 4) = Real.sqrt 2 / 2 := by
  have h : 3 * Real.pi / 4 = Real.pi - Real.pi / 4 := by ring
  rw [h, Real.sin_pi_sub, Real.sin_pi_div_four]

theorem cos_three_quarter : Real.cos (3 * Real.pi / 4) = -(Real.sqrt 2 / 2) := by
  have h : 3 * Real.pi / 4 = Real.pi - Real.pi / 4 := by ring
  rw [h, Real.cos_pi_sub, Real.cos_pi_div_four]

theorem sqrt_two_half_bounds :
    (70710678118 : ℝ) / 10 ^ 11 < Real.sqrt 2 / 2 ∧ Real.sqrt 2 / 2 < 70710678119 / 10 ^ 11 := by
  have h1 : (141421356236 : ℝ) / 10 ^ 11 < Real.sqrt 2 := by
    rw [Real.lt_sqrt (by norm_num)]
    norm_num
  have h2 : Real.sqrt 2 < (141421356238 : ℝ) / 10 ^ 11 := by
    rw [Real.sqrt_lt' (by norm_num)]
    norm_num
  constructor
  · linarith only [h1]
  · linarith only [h2]

theorem sin_cos_small (t : ℝ) (h0 : 0 < t) (h1 : t ≤ 1 / 10 ^ 4) :
    (t - 1 / 10 ^ 8 ≤ 1 - (Real.cos t - Real.sin t) ∧
      1 - (Real.cos t - Real.sin t) ≤ t + 1 / 10 ^ 8) ∧
    (t - 1 / 10 ^ 8 ≤ Real.cos t + Real.sin t - 1 ∧ Real.cos t + Real.sin t - 1 ≤ t) := by
  have hs1 : Real.sin t < t := Real.sin_lt h0
  have hs2 : t - t ^ 3 / 4 < Real.sin t :=
    Real.sin_gt_sub_cube h0 (le_trans h1 (by norm_num))
  have hc1 : Real.cos t ≤ 1 := Real.cos_le_one t
  have hc2 : 1 - t ^ 2 / 2 ≤ Real.cos t := Real.one_sub_sq_div_two_le_cos
  have ht2 : t ^ 2 ≤ 1 / 10 ^ 8 := le_trans (pow_le_pow_left₀ h0.le h1 2) (by norm_num)
  have ht3 : t ^ 3 ≤ 1 / 10 ^ 12 := le_trans (pow_le_pow_left₀ h0.le h1 3) (by norm_num)
  refine ⟨⟨?_, ?_⟩, ?_, ?_⟩
  · linarith only [hs2, hc1, ht3]
  · linarith only [hs1, hc2, ht2]
  · linarith only [hs2, hc2, ht2, ht3]
  · linarith only [hs1, hc1]

theorem exact_forward_values :
    Real.sin (2 * Real.pi * (32768 / 65535 - 0.125))
      = Real.sqrt 2 / 2 * (Real.cos (Real.pi / 65535) - Real.sin (Real.pi / 65535)) ∧
    -Real.cos (2 * Real.pi * (32768 / 65535 - 0.125))
      = Real.sqrt 2 / 2 * (Real.cos (Real.pi / 65535) + Real.sin (Real.pi / 65535)) := by
  have h : 2 * Real.pi * (32768 / 65535 - 0.125) = 3 * Real.pi / 4 + Real.pi / 65535 := by
    norm_num
    ring
  rw [h, Real.sin_add, Real.cos_add, sin_three_quarter, cos_three_quarter]
  constructor <;> ring

theorem product_in (r w r1 r2 w1 w2 lo hi : ℝ) (hr : r1 < r ∧ r < r2) (hw : w1 ≤ w ∧ w ≤ w2)
    (hr1 : 0 ≤ r1) (hw1 : 0 ≤ w1) (hlo : lo ≤ r1 * w1) (hhi : r2 * w2 ≤ hi) :
    lo ≤ r * w ∧ r * w ≤ hi := by
  have hr0 : 0 ≤ r := le_trans hr1 hr.1.le
  have hw0 : 0 ≤ w := le_trans hw1 hw.1
  exact ⟨le_trans hlo (mul_le_mul hr.1.le hw.1 hw1 hr0),
    le_trans (mul_le_mul hr.2.le hw.2 hw0 (le_trans hr0 hr.2.le)) hhi⟩

theorem exact_forward_gap :
    (33 / 10 ^ 6 ≤ Real.sqrt 2 / 2 - Real.sin (2 * Real.pi * (32768 / 65535 - 0.125)) ∧
      Real.sqrt 2 / 2 - Real.sin (2 * Real.pi * (32768 / 65535 - 0.125)) ≤ 35 / 10 ^ 6) ∧
    (33 / 10 ^ 6 ≤ -Real.cos (2 * Real.pi * (32768 / 65535 - 0.125)) - Real.sqrt 2 / 2 ∧
      -Real.cos (2 * Real.pi * (32768 / 65535 - 0.125)) - Real.sqrt 2 / 2 ≤ 35 / 10 ^ 6) := by
  obtain ⟨hs, hc⟩ := exact_forward_values
  have hpi1 := Real.pi_gt_d6
  have hpi2 := Real.pi_lt_d6
  have hd1 : (4793 : ℝ) / 10 ^ 8 ≤ Real.pi / 65535 := by
    rw [le_div_iff₀ (by norm_num)]
    exact le_trans (by norm_num) hpi1.le
  have hd2 : Real.pi / 65535 ≤ (4794 : ℝ) / 10 ^ 8 := by
    rw [div_le_iff₀ (by norm_num)]
    exact le_trans hpi2.le (by norm_num)
  obtain ⟨⟨ha1, ha2⟩, hb1, hb2⟩ := sin_cos_small (Real.pi / 65535)
    (lt_of_lt_of_le (by norm_num) hd1) (le_trans hd2 (by norm_num))
  have hw : (4792 : ℝ) / 10 ^ 8 ≤ 1 - (Real.cos (Real.pi / 65535) - Real.sin (Real.pi / 65535)) ∧
      1 - (Real.cos (Real.pi / 65535) - Real.sin (Real.pi / 65535)) ≤ 4795 / 10 ^ 8 :=
    ⟨by linarith only [ha1, hd1], by linarith only [ha2, hd2]⟩
  have hv : (4792 : ℝ) / 10 ^ 8 ≤ Real.cos (Real.pi / 65535) + Real.sin (Real.pi / 65535) - 1 ∧
      Real.cos (Real.pi / 65535) + Real.sin (Real.pi / 65535) - 1 ≤ 4795 / 10 ^ 8 :=
    ⟨by linarith only [hb1, hd1], by linarith only [hb2, hd2]⟩
  have h1 := product_in _ _ _ _ _ _ (33 / 10 ^ 6) (35 / 10 ^ 6) sqrt_two_half_bounds hw
    (by norm_num) (by norm_num) (by norm_num) (by norm_num)
  have h2 := product_in _ _ _ _ _ _ (33 / 10 ^ 6) (35 / 10 ^ 6) sqrt_two_half_bounds hv
    (by norm_num) (by norm_num) (by norm_num) (by norm_num)
  have e1 : Real.sqrt 2 / 2 - Real.sin (2 * Real.pi * (32768 / 65535 - 0.125))
      = Real.sqrt 2 / 2 *
        (1 - (Real.cos (Real.pi / 65535) - Real.sin (Real.pi / 65535))) := by
    rw [hs]
    ring
  have e2 : -Real.cos (2 * Real.pi * (32768 / 65535 - 0.125)) - Real.sqrt 2 / 2
      = Real.sqrt 2 / 2 *
        (Real.cos (Real.pi / 65535) + Real.sin (Real.pi / 65535) - 1) := by
    rw [hc]
    ring
  rw [e1, e2]
  exact ⟨h1, h2⟩

theorem round_real (f : ℚ → ℚ) (k : ℕ)
    (h : ∀ x : ℚ, 1 / 8 ≤ |x| → |x| ≤ 65536 → |f x - x| ≤ |x| / 2 ^ k)
    (x : ℚ) (hx1 : (1 / 8 : ℝ) ≤ |(x : ℝ)|) (hx2 : |(x : ℝ)| ≤ 1) :
    |((f x : ℚ) : ℝ) - (x : ℝ)| ≤ 1 / 2 ^ k := by
  have q1 : (1 / 8 : ℚ) ≤ |x| := by
    have : ((1 / 8 : ℚ) : ℝ) ≤ ((|x| : ℚ) : ℝ) := by
      push_cast
      exact hx1
    exact (Rat.cast_le (K := ℝ)).mp this
  have q2 : |x| ≤ (1 : ℚ) := by
    have : ((|x| : ℚ) : ℝ) ≤ ((1 : ℚ) : ℝ) := by
      push_cast
      exact hx2
    exact (Rat.cast_le (K := ℝ)).mp this
  have hq := h x q1 (le_trans q2 (by norm_num))
  have hq' : |f x - x| ≤ 1 / 2 ^ k :=
    le_trans hq (div_le_div_of_nonneg_right q2 (by positivity))
  have := (Rat.cast_le (K := ℝ)).mpr hq'
  push_cast at this
  exact this

theorem combine_errors (l sF sP sT : ℝ) (h1 : |l - sF| ≤ 1 / 2 ^ 24)
    (h2 : |sF - sP| ≤ 1 / 10 ^ 8) (h3 : |sP - sT| ≤ 73 / 10 ^ 8) :
    |l - sT| ≤ 9 / 10 ^ 7 := by
  obtain ⟨a1, a2⟩ := abs_le.mp h1
  obtain ⟨b1, b2⟩ := abs_le.mp h2
  obtain ⟨c1, c2⟩ := abs_le.mp h3
  rw [abs_le]
  constructor
  · linarith only [a1, b1, c1]
  · linarith only [a2, b2, c2]

theorem sin_range (r z sP sF : ℝ)
    (hr : 70710678118 / 10 ^ 11 < r ∧ r < 70710678119 / 10 ^ 11)
    (hg : 33 / 10 ^ 6 ≤ r - z ∧ r - z ≤ 35 / 10 ^ 6)
    (hS : |sF - sP| ≤ 1 / 10 ^ 8) (hls : |sP - z| ≤ 73 / 10 ^ 8) :
    1 / 8 ≤ sF ∧ sF ≤ 1 := by
  obtain ⟨b1, b2⟩ := abs_le.mp hS
  obtain ⟨c1, c2⟩ := abs_le.mp hls
  constructor
  · linarith only [b1, c1, hr.1, hg.2]
  · linarith only [b2, c2, hr.2, hg.1]

theorem cos_range (r z cP cF : ℝ)
    (hr : 70710678118 / 10 ^ 11 < r ∧ r < 70710678119 / 10 ^ 11)
    (hg : 33 / 10 ^ 6 ≤ -z - r ∧ -z - r ≤ 35 / 10 ^ 6)
    (hC : |cF - cP| ≤ 1 / 10 ^ 8) (hlc : |cP - z| ≤ 73 / 10 ^ 8) :
    -1 ≤ cF ∧ cF ≤ -(1 / 8) := by
  obtain ⟨b1, b2⟩ := abs_le.mp hC
  obtain ⟨c1, c2⟩ := abs_le.mp hlc
  constructor
  · linarith only [b1, c1, hr.2, hg.2]
  · linarith only [b2, c2, hr.1, hg.1]

theorem pos_of_near (l s : ℝ) (h : |l - s| ≤ 1 / 2 ^ 24) (hs : 1 / 8 ≤ s) : 0 < l := by
  linarith only [(abs_le.mp h).1, hs]

theorem neg_of_near (l s : ℝ) (h : |l - s| ≤ 1 / 2 ^ 24) (hs : s ≤ -(1 / 8)) : l < 0 := by
  linarith only [(abs_le.mp h).2, hs]

theorem computed_forward (E : FloatEnv) (hE : E.Accurate 0x8000) :
    |(E.leftAmount 0x8000 : ℝ) - Real.sin (2 * Real.pi * (32768 / 65535 - 0.125))|
      ≤ 9 / 10 ^ 7 ∧
    |(E.rightAmount 0x8000 : ℝ) - -Real.cos (2 * Real.pi * (32768 / 65535 - 0.125))|
      ≤ 9 / 10 ^ 7 := by
  have hph := phase_error E hE
  obtain ⟨hF, -, -, hS, hC⟩ := hE
  obtain ⟨hgs, hgc⟩ := exact_forward_gap
  have hls := le_trans (abs_sin_sub_sin_le (E.phase 0x8000)
    (2 * Real.pi * (32768 / 65535 - 0.125))) hph
  have hlc := le_trans (abs_cos_sub_cos_le (E.phase 0x8000)
    (2 * Real.pi * (32768 / 65535 - 0.125))) hph
  -- the computed sine and cosine are close to 0.7071 and -0.7071
  have hs := sin_range _ _ _ _ sqrt_two_half_bounds hgs hS hls
  have hc := cos_range _ _ _ _ sqrt_two_half_bounds hgc hC hlc
  have hs0 : (0 : ℝ) ≤ (E.sin (E.phase 0x8000) : ℝ) := le_trans (by norm_num) hs.1
  have hc0 : (E.cos (E.phase 0x8000) : ℝ) ≤ 0 := le_trans hc.2 (by norm_num)
  have hFs := round_real E.toFloat 24 hF (E.sin (E.phase 0x8000))
    (by rw [abs_of_nonneg hs0]; exact hs.1) (by rw [abs_of_nonneg hs0]; exact hs.2)
  have hFc := round_real E.toFloat 24 hF (E.cos (E.phase 0x8000))
    (by rw [abs_of_nonpos hc0]; exact le_neg_of_le_neg hc.2)
    (by rw [abs_of_nonpos hc0]; exact neg_le.mp hc.1)
  have hlpos := pos_of_near _ _ hFs hs.1
  have hrneg := neg_of_near _ _ hFc hc.2
  have hlposq : (0 : ℚ) < E.toFloat (E.sin (E.phase 0x8000)) := by exact_mod_cast hlpos
  have hrnegq : E.toFloat (E.cos (E.phase 0x8000)) < (0 : ℚ) := by exact_mod_cast hrneg
  have hleft : E.leftAmount 0x8000 = E.toFloat (E.sin (E.phase 0x8000)) := by
    unfold FloatEnv.leftAmount
    simp only [gt_iff_lt, hlposq, if_true]
  have hright : E.rightAmount 0x8000 = -E.toFloat (E.cos (E.phase 0x8000)) := by
    unfold FloatEnv.rightAmount
    simp only [hrnegq, if_true]
  constructor
  · rw [hleft]
    exact combine_errors _ _ _ _ hFs hS hls
  · rw [hright, Rat.cast_neg, neg_sub_neg, abs_sub_comm]
    exact combine_errors _ _ _ _ hFc hC hlc

theorem exactEnv_phase :
    exactEnv.phase 0x8000 = 3141592653589793 / 10 ^ 15 * (3 / 4 + 1 / 65535) := by
  simp only [FloatEnv.phase, FloatEnv.angle, exactEnv, id]
  norm_num

theorem exactEnv_sin_value :
    (70707288335 : ℚ) / 10 ^ 11 ≤ exactEnv.sin (exactEnv.phase 0x8000) ∧
    exactEnv.sin (exactEnv.phase 0x8000) ≤ 70707288336 / 10 ^ 11 := by
  rw [exactEnv_phase]
  simp only [exactEnv, cosPoly, sinPoly]
  norm_num

theorem exactEnv_cos_value :
    -(70714067740 : ℚ) / 10 ^ 11 ≤ exactEnv.cos (exactEnv.phase 0x8000) ∧
    exactEnv.cos (exactEnv.phase 0x8000) ≤ -70714067739 / 10 ^ 11 := by
  rw [exactEnv_phase]
  simp only [exactEnv, cosPoly, sinPoly]
  norm_num

theorem true_values_real (r t ct st : ℝ)
    (hr : 70710678118 / 10 ^ 11 < r ∧ r < 70710678119 / 10 ^ 11)
    (ht1 : 479376310 / 10 ^ 13 ≤ t) (ht2 : t ≤ 479376312 / 10 ^ 13)
    (ha : t - 1 / 10 ^ 8 ≤ 1 - (ct - st) ∧ 1 - (ct - st) ≤ t + 1 / 10 ^ 8)
    (hb : t - 1 / 10 ^ 8 ≤ ct + st - 1 ∧ ct + st - 1 ≤ t) :
    (707072877 / 10 ^ 9 ≤ r * ct + -r * st ∧ r * ct + -r * st ≤ 707072892 / 10 ^ 9) ∧
    (-707140679 / 10 ^ 9 ≤ -r * ct - r * st ∧ -r * ct - r * st ≤ -707140671 / 10 ^ 9) := by
  have hu : 1 - (479376312 / 10 ^ 13 + 1 / 10 ^ 8) ≤ ct - st ∧
      ct - st ≤ 1 - (479376310 / 10 ^ 13 - 1 / 10 ^ 8) :=
    ⟨by linarith only [ha.2, ht2], by linarith only [ha.1, ht1]⟩
  have hv : 1 + (479376310 / 10 ^ 13 - 1 / 10 ^ 8) ≤ ct + st ∧
      ct + st ≤ 1 + 479376312 / 10 ^ 13 :=
    ⟨by linarith only [hb.1, ht1], by linarith only [hb.2, ht2]⟩
  have h1 := product_in r (ct - st) _ _ _ _ (707072877 / 10 ^ 9) (707072892 / 10 ^ 9) hr hu
    (by norm_num) (by norm_num) (by norm_num) (by norm_num)
  have h2 := product_in r (ct + st) _ _ _ _ (707140671 / 10 ^ 9) (707140679 / 10 ^ 9) hr hv
    (by norm_num) (by norm_num) (by norm_num) (by norm_num)
  have e1 : r * ct + -r * st = r * (ct - st) := by ring
  have e2 : -r * ct - r * st = -(r * (ct + st)) := by ring
  rw [e1, e2]
  refine ⟨h1, ?_, ?_⟩
  · linarith only [h2.2]
  · linarith only [h2.1]

theorem exactEnv_true_values :
    ((707072877 : ℝ) / 10 ^ 9 ≤ Real.sin (exactEnv.phase 0x8000 : ℚ) ∧
      Real.sin (exactEnv.phase 0x8000 : ℚ) ≤ 707072892 / 10 ^ 9) ∧
    (-(707140679 : ℝ) / 10 ^ 9 ≤ Real.cos (exactEnv.phase 0x8000 : ℚ) ∧
      Real.cos (exactEnv.phase 0x8000 : ℚ) ≤ -707140671 / 10 ^ 9) := by
  have hpi1 := Real.pi_gt_d20
  have hpi2 := Real.pi_lt_d20
  have hp : ((exactEnv.phase 0x8000 : ℚ) : ℝ)
      = 3 * Real.pi / 4 +
        (3141592653589793 / 10 ^ 15 * (3 / 4 + 1 / 65535) - 3 * Real.pi / 4) := by
    rw [exactEnv_phase]
    push_cast
    ring
  have ht1 : (479376310 : ℝ) / 10 ^ 13
      ≤ 3141592653589793 / 10 ^ 15 * (3 / 4 + 1 / 65535) - 3 * Real.pi / 4 := by
    norm_num at hpi2 ⊢
    linarith only [hpi2]
  have ht2 : 3141592653589793 / 10 ^ 15 * (3 / 4 + 1 / 65535) - 3 * Real.pi / 4
      ≤ (479376312 : ℝ) / 10 ^ 13 := by
    norm_num at hpi1 ⊢
    linarith only [hpi1]
  obtain ⟨ha, hb⟩ := sin_cos_small _ (lt_of_lt_of_le (by norm_num) ht1)
    (le_trans ht2 (by norm_num))
  rw [hp, Real.sin_add, Real.cos_add, sin_three_quarter, cos_three_quarter]
  exact true_values_real _ _ _ _ sqrt_two_half_bounds ht1 ht2 ha hb

theorem abs_sub_le_of_mem (x y a b c d e : ℝ) (hx : a ≤ x ∧ x ≤ b) (hy : c ≤ y ∧ y ≤ d)
    (h1 : b - c ≤ e) (h2 : d - a ≤ e) : |x - y| ≤ e := by
  rw [abs_le]
  constructor
  · linarith only [hx.1, hy.2, h2]
  · linarith only [hx.2, hy.1, h1]

theorem exactEnv_accurate : exactEnv.Accurate 0x8000 := by
  obtain ⟨hs1, hs2⟩ := exactEnv_sin_value
  obtain ⟨hc1, hc2⟩ := exactEnv_cos_value
  obtain ⟨ht, ht'⟩ := exactEnv_true_values
  have hs1r := (Rat.cast_le (K := ℝ)).mpr hs1
  have hs2r := (Rat.cast_le (K := ℝ)).mpr hs2
  have hc1r := (Rat.cast_le (K := ℝ)).mpr hc1
  have hc2r := (Rat.cast_le (K := ℝ)).mpr hc2
  push_cast at hs1r hs2r hc1r hc2r
  refine ⟨?_, ?_, ?_, ?_, ?_⟩
  · intro x _ _
    simp only [exactEnv, id, sub_self, abs_zero]
    positivity
  · intro x _ _
    simp only [exactEnv, id, sub_self, abs_zero]
    positivity
  · have hpi1 := Real.pi_gt_d20
    have hpi2 := Real.pi_lt_d20
    have e : ((exactEnv.M_PI : ℚ) : ℝ) = 3141592653589793 / 10 ^ 15 := by
      simp only [exactEnv]
      push_cast
      norm_num
    rw [e]
    exact abs_sub_le_of_mem _ _ _ _ _ _ _ ⟨le_rfl, le_rfl⟩ ⟨hpi1.le, hpi2.le⟩
      (by norm_num) (by norm_num)
  · exact abs_sub_le_of_mem _ _ _ _ _ _ _ ⟨hs1r, hs2r⟩ ht (by norm_num) (by norm_num)
  · exact abs_sub_le_of_mem _ _ _ _ _ _ _ ⟨hc1r, hc2r⟩ ht' (by norm_num) (by norm_num)

theorem closed_form_values :
    Real.sin (2 * Real.pi * (0.5 - 0.125)) = Real.sqrt 2 / 2 ∧
    max 0 (-Real.cos (2 * Real.pi * (0.5 - 0.125))) = Real.sqrt 2 / 2 := by
  have h : 2 * Real.pi * (0.5 - 0.125) = 3 * Real.pi / 4 := by
    norm_num
    ring
  rw [h, sin_three_quarter, cos_three_quarter, neg_neg]
  exact ⟨rfl, max_eq_right (by positivity)⟩

theorem gap_below (l s q : ℝ) (h : |l - s| ≤ 9 / 10 ^ 7)
    (g : 33 / 10 ^ 6 ≤ q - s ∧ q - s ≤ 35 / 10 ^ 6) :
    32 / 10 ^ 6 ≤ q - l ∧ q - l ≤ 36 / 10 ^ 6 := by
  obtain ⟨a1, a2⟩ := abs_le.mp h
  constructor
  · linarith only [a2, g.1]
  · linarith only [a1, g.2]

theorem gap_above (l s q : ℝ) (h : |l - s| ≤ 9 / 10 ^ 7)
    (g : 33 / 10 ^ 6 ≤ s - q ∧ s - q ≤ 35 / 10 ^ 6) :
    32 / 10 ^ 6 ≤ l - q ∧ l - q ≤ 36 / 10 ^ 6 := by
  obtain ⟨a1, a2⟩ := abs_le.mp h
  constructor
  · linarith only [a1, g.1]
  · linarith only [a2, g.2]

theorem forward_off (E : FloatEnv) (hE : E.Accurate 0x8000) :
    (32 / 10 ^ 6 ≤ Real.sqrt 2 / 2 - (E.leftAmount 0x8000 : ℝ) ∧
      Real.sqrt 2 / 2 - (E.leftAmount 0x8000 : ℝ) ≤ 36 / 10 ^ 6) ∧
    (32 / 10 ^ 6 ≤ (E.rightAmount 0x8000 : ℝ) - Real.sqrt 2 / 2 ∧
      (E.rightAmount 0x8000 : ℝ) - Real.sqrt 2 / 2 ≤ 36 / 10 ^ 6) := by
  obtain ⟨hl, hr⟩ := computed_forward E hE
  obtain ⟨hgs, hgc⟩ := exact_forward_gap
  exact ⟨gap_below _ _ _ hl hgs, gap_above _ _ _ hr hgc⟩

theorem not_within_of_below (x q : ℝ) (h : 32 / 10 ^ 6 ≤ q - x) : ¬ |x - q| ≤ 1 / 10 ^ 6 := by
  intro hc
  linarith only [(abs_le.mp hc).1, h]

theorem not_within_of_above (x q : ℝ) (h : 32 / 10 ^ 6 ≤ x - q) : ¬ |x - q| ≤ 1 / 10 ^ 6 := by
  intro hc
  linarith only [(abs_le.mp hc).2, h]

theorem within_of_below (x q : ℝ) (h : 32 / 10 ^ 6 ≤ q - x ∧ q - x ≤ 36 / 10 ^ 6) :
    |x - q| ≤ 4 / 10 ^ 5 := by
  rw [abs_le]
  constructor
  · linarith only [h.2]
  · linarith only [h.1]

theorem within_of_above (x q : ℝ) (h : 32 / 10 ^ 6 ≤ x - q ∧ x - q ≤ 36 / 10 ^ 6) :
    |x - q| ≤ 4 / 10 ^ 5 := by
  rw [abs_le]
  constructor
  · linarith only [h.1]
  · linarith only [h.2]

/-- C6 (as stated) fails: whenever the floating point operations are accurate (as they
are in `exactEnv`), at direction `0x8000` the left amount is more than `10^-6` below
`sin(2π(0.5 - 0.125))` and the right amount more than `10^-6` above
`max(0, -cos(2π(0.5 - 0.125)))`, because `0x8000 / 0xFFFF` is not `0.5`. -/
theorem decomposition_forward_off :
    exactEnv.Accurate 0x8000 ∧
    ¬ (|(exactEnv.leftAmount 0x8000 : ℝ) - Real.sin (2 * Real.pi * (0.5 - 0.125))|
          ≤ 1 / 10 ^ 6 ∧
        |(exactEnv.rightAmount 0x8000 : ℝ) - max 0 (-Real.cos (2 * Real.pi * (0.5 - 0.125)))|
          ≤ 1 / 10 ^ 6) ∧
    ¬ ∃ E : FloatEnv, E.Accurate 0x8000 ∧
        (|(E.leftAmount 0x8000 : ℝ) - Real.sin (2 * Real.pi * (0.5 - 0.125))| ≤ 1 / 10 ^ 6 ∨
          |(E.rightAmount 0x8000 : ℝ) - max 0 (-Real.cos (2 * Real.pi * (0.5 - 0.125)))|
            ≤ 1 / 10 ^ 6) := by
  have key : ∀ E : FloatEnv, E.Accurate 0x8000 →
      ¬ (|(E.leftAmount 0x8000 : ℝ) - Real.sin (2 * Real.pi * (0.5 - 0.125))| ≤ 1 / 10 ^ 6 ∨
          |(E.rightAmount 0x8000 : ℝ) - max 0 (-Real.cos (2 * Real.pi * (0.5 - 0.125)))|
            ≤ 1 / 10 ^ 6) := by
    intro E hE
    obtain ⟨hl, hr⟩ := forward_off E hE
    rw [closed_form_values.1, closed_form_values.2]
    rintro (h | h)
    · exact not_within_of_below _ _ hl.1 h
    · exact not_within_of_above _ _ hr.1 h
  refine ⟨exactEnv_accurate, fun h => key exactEnv exactEnv_accurate (Or.inl h.1), ?_⟩
  rintro ⟨E, hE, h⟩
  exact key E hE h

/-- C6 (amended): whenever the floating point operations are accurate, at direction
`0x8000` the left amount is within `10^-6` of `sin(2π(0x8000/0xFFFF - 0.125))` and the
right amount within `10^-6` of `max(0, -cos(2π(0x8000/0xFFFF - 0.125)))`; both are
within `4·10^-5` of the values at `0.5 - 0.125`. -/
theorem decomposition_forward (E : FloatEnv) (hE : E.Accurate 0x8000) :
    |(E.leftAmount 0x8000 : ℝ) - Real.sin (2 * Real.pi * (0x8000 / 0xFFFF - 0.125))|
      ≤ 1 / 10 ^ 6 ∧
    |(E.rightAmount 0x8000 : ℝ) - max 0 (-Real.cos (2 * Real.pi * (0x8000 / 0xFFFF - 0.125)))|
      ≤ 1 / 10 ^ 6 ∧
    |(E.leftAmount 0x8000 : ℝ) - Real.sin (2 * Real.pi * (0.5 - 0.125))| ≤ 4 / 10 ^ 5 ∧
    |(E.rightAmount 0x8000 : ℝ) - max 0 (-Real.cos (2 * Real.pi * (0.5 - 0.125)))|
      ≤ 4 / 10 ^ 5 := by
  obtain ⟨hl, hr⟩ := computed_forward E hE
  obtain ⟨hlo, hro⟩ := forward_off E hE
  obtain ⟨-, hg3, -⟩ := exact_forward_gap
  have hmax : max 0 (-Real.cos (2 * Real.pi * (32768 / 65535 - 0.125)))
      = -Real.cos (2 * Real.pi * (32768 / 65535 - 0.125)) :=
    max_eq_right (by linarith only [hg3, Real.sqrt_nonneg 2])
  refine ⟨le_trans hl (by norm_num), ?_, ?_, ?_⟩
  · rw [hmax]
    exact le_trans hr (by norm_num)
  · rw [closed_form_values.1]
    exact within_of_below _ _ hlo
  · rw [closed_form_values.2]
    exact within_of_above _ _ hro

/-- Witness for C6 (amended): the exactly computing environment is accurate. -/
theorem decomposition_forward_witness :
    exactEnv.Accurate 0x8000 ∧
    |(exactEnv.leftAmount 0x8000 : ℝ) - Real.sin (2 * Real.pi * (0x8000 / 0xFFFF - 0.125))|
      ≤ 1 / 10 ^ 6 ∧
    |(exactEnv.rightAmount 0x8000 : ℝ)
        - max 0 (-Real.cos (2 * Real.pi * (0x8000 / 0xFFFF - 0.125)))| ≤ 1 / 10 ^ 6 :=
  ⟨exactEnv_accurate, (decomposition_forward exactEnv exactEnv_accurate).1,
    (decomposition_forward exactEnv exactEnv_accurate).2.1⟩

/-! ## The transmission descriptor (`Dongle::sendControllerPacket`) -/

theorem controllerFrame_descriptor (L : Layout) (hL : L.WellSized) (macAddress : Bytes)
    (wcid : Nat) (address packet : Bytes) :
    ((controllerFrame L macAddress wcid address packet).drop 8).take L.sizeofTxWi
      = L.rawTxWi (buildTxWi L packet) := by
  obtain ⟨h32, htx, -, -⟩ := hL
  rw [controllerFrame_eq]
  have h8 : (L.rawU32 (bswap32 (wcidIndex wcid)) ++ List.replicate 4 0).length = 8 := by
    rw [List.length_append, List.length_replicate, h32]
  simp only [List.append_assoc]
  rw [← List.append_assoc (L.rawU32 (bswap32 (wcidIndex wcid))), ← h8, List.drop_left,
    ← htx (buildTxWi L packet), List.take_left]

theorem buildTxWi_fits (L : Layout) (packet : Bytes)
    (hfit : L.sizeofWlanFrame + L.sizeofQosFrame + packet.length < 2 ^ L.mpduByteCountBits) :
    buildTxWi L packet =
      { phyType := L.MT_PHY_TYPE_OFDM, ack := 1,
        mpduByteCount := L.sizeofWlanFrame + L.sizeofQosFrame + packet.length } := by
  unfold buildTxWi
  rw [Nat.mod_eq_of_lt hfit]

/-- C11 (amended): the descriptor that `sendControllerPacket` builds has PHY type OFDM,
the acknowledgement bit set and, as byte count, `sizeof(WlanFrame) + sizeof(QosFrame) +
packet.size()` reduced modulo `2 ^ w`, where `w` is the width of the byte count member.
For every payload for which that sum is below `2 ^ w`, the byte count is the sum itself,
and the buffer handed to the transport's `sendCommand` with the command `CMD_PACKET_TX`
carries, after its two leading words, the raw descriptor with these three values; the
descriptor's own size, the two leading words and the two paddings are not counted:
together with the byte count they make up the length of the buffer. -/
theorem sendControllerPacket_descriptor (L : Layout) (hL : L.WellSized) (macAddress : Bytes)
    (wcid : Nat) (address packet : Bytes)
    (hfit : L.sizeofWlanFrame + L.sizeofQosFrame + packet.length < 2 ^ L.mpduByteCountBits) :
    (∀ sendCommand : Nat → Bytes → Bool,
      sendControllerPacket L macAddress sendCommand wcid address packet =
        sendCommand L.CMD_PACKET_TX (controllerFrame L macAddress wcid address packet)) ∧
    ((controllerFrame L macAddress wcid address packet).drop 8).take L.sizeofTxWi
      = L.rawTxWi
          { phyType := L.MT_PHY_TYPE_OFDM, ack := 1,
            mpduByteCount := L.sizeofWlanFrame + L.sizeofQosFrame + packet.length } ∧
    ((controllerFrame L macAddress wcid address packet).drop 8).take L.sizeofTxWi
      = L.rawTxWi (buildTxWi L packet) ∧
    (buildTxWi L packet).phyType = L.MT_PHY_TYPE_OFDM ∧
    (buildTxWi L packet).ack = 1 ∧
    (buildTxWi L packet).mpduByteCount
      = L.sizeofWlanFrame + L.sizeofQosFrame + packet.length ∧
    (controllerFrame L macAddress wcid address packet).length
      = (buildTxWi L packet).mpduByteCount
        + (8 + L.sizeofTxWi + framePadding L + dataPadding packet) ∧
    ∀ other : Bytes,
      (buildTxWi L other).phyType = L.MT_PHY_TYPE_OFDM ∧ (buildTxWi L other).ack = 1 ∧
      (buildTxWi L other).mpduByteCount
        = (L.sizeofWlanFrame + L.sizeofQosFrame + other.length) % 2 ^ L.mpduByteCountBits := by
  have hdesc := controllerFrame_descriptor L hL macAddress wcid address packet
  have hfits := buildTxWi_fits L packet hfit
  refine ⟨fun sendCommand => sendControllerPacket_eq L macAddress sendCommand wcid address packet,
    ?_, hdesc, rfl, rfl, ?_, ?_, fun other => ⟨rfl, rfl, rfl⟩⟩
  · rw [hdesc, hfits]
  · rw [hfits]
  · rw [controllerFrame_length L hL, hfits]
    show _ = L.sizeofWlanFrame + L.sizeofQosFrame + packet.length + _
    omega

/-- Witness for C11 (amended): header sizes 20, 24 and 2, a 14-bit byte count and a
three-byte payload give byte count 29 in a buffer of 60 bytes, and a transport that
accepts exactly the command `CMD_PACKET_TX` with a buffer whose bytes 8 to 27 are the raw
descriptor with PHY type OFDM, acknowledgement 1 and byte count 29 accepts the call. -/
theorem sendControllerPacket_descriptor_witness :
    exampleLayout.WellSized ∧
    exampleLayout.sizeofWlanFrame + exampleLayout.sizeofQosFrame
      + [0xaa, 0xbb, 0xcc].length < 2 ^ exampleLayout.mpduByteCountBits ∧
    sendControllerPacket exampleLayout [1, 2, 3, 4, 5, 6]
      (fun command out => decide (command = exampleLayout.CMD_PACKET_TX ∧
        (out.drop 8).take 20 = exampleLayout.rawTxWi
          { phyType := exampleLayout.MT_PHY_TYPE_OFDM, ack := 1, mpduByteCount := 29 }))
      3 [10, 11, 12, 13, 14, 15] [0xaa, 0xbb, 0xcc] = true ∧
    (buildTxWi exampleLayout [0xaa, 0xbb, 0xcc]).mpduByteCount = 29 ∧
    (controllerFrame exampleLayout [1, 2, 3, 4, 5, 6] 3 [10, 11, 12, 13, 14, 15]
      [0xaa, 0xbb, 0xcc]).length = 29 + (8 + 20 + 2 + 1) :=
  have h := sendControllerPacket_descriptor exampleLayout exampleLayout_wellSized
    [1, 2, 3, 4, 5, 6] 3 [10, 11, 12, 13, 14, 15] [0xaa, 0xbb, 0xcc] (by decide)
  ⟨exampleLayout_wellSized, by decide, (h.1 _).trans (by decide), h.2.2.2.2.2.1,
    h.2.2.2.2.2.2.1⟩

/-- Counterexample for C11: with header sizes 24 and 2 and a 14-bit byte count, a
payload of 16358 bytes has header sizes plus payload length 16384, but the descriptor
that `sendControllerPacket` hands to the transport after the two leading words of the
buffer carries byte count 0; and whatever the header sizes and the width of the byte
count, the byte count differs from the header sizes plus the payload length for some
payload. -/
theorem sendControllerPacket_descriptor_wraps :
    exampleLayout.sizeofWlanFrame + exampleLayout.sizeofQosFrame
      + (List.replicate 16358 0).length = 16384 ∧
    (buildTxWi exampleLayout (List.replicate 16358 0)).mpduByteCount = 0 ∧
    (buildTxWi exampleLayout (List.replicate 16358 0)).mpduByteCount
      ≠ exampleLayout.sizeofWlanFrame + exampleLayout.sizeofQosFrame
        + (List.replicate 16358 0).length ∧
    (∀ sendCommand : Nat → Bytes → Bool,
      sendControllerPacket exampleLayout [1, 2, 3, 4, 5, 6] sendCommand 3
          [10, 11, 12, 13, 14, 15] (List.replicate 16358 0) =
        sendCommand exampleLayout.CMD_PACKET_TX
          (controllerFrame exampleLayout [1, 2, 3, 4, 5, 6] 3 [10, 11, 12, 13, 14, 15]
            (List.replicate 16358 0))) ∧
    ((controllerFrame exampleLayout [1, 2, 3, 4, 5, 6] 3 [10, 11, 12, 13, 14, 15]
        (List.replicate 16358 0)).drop 8).take exampleLayout.sizeofTxWi
      = exampleLayout.rawTxWi
          { phyType := exampleLayout.MT_PHY_TYPE_OFDM, ack := 1, mpduByteCount := 0 } ∧
    ¬ ∃ L : Layout, ∀ packet : Bytes,
      (buildTxWi L packet).mpduByteCount
        = L.sizeofWlanFrame + L.sizeofQosFrame + packet.length := by
  have hlen : exampleLayout.sizeofWlanFrame + exampleLayout.sizeofQosFrame
      + (List.replicate 16358 0).length = 16384 := by
    rw [List.length_replicate]
    rfl
  have hbuild : buildTxWi exampleLayout (List.replicate 16358 0) =
      { phyType := exampleLayout.MT_PHY_TYPE_OFDM, ack := 1, mpduByteCount := 0 } := by
    unfold buildTxWi
    rw [hlen]
    rfl
  refine ⟨hlen, ?_, ?_, fun sendCommand => sendControllerPacket_eq _ _ _ _ _ _, ?_, ?_⟩
  · rw [hbuild]
  · rw [hbuild, hlen]
    decide
  · rw [controllerFrame_descriptor exampleLayout exampleLayout_wellSized, hbuild]
  · rintro ⟨L, h⟩
    have h1 := h (List.replicate (2 ^ L.mpduByteCountBits) 0)
    have hpos : 0 < 2 ^ L.mpduByteCountBits := Nat.two_pow_pos _
    have hlt := Nat.mod_lt (L.sizeofWlanFrame + L.sizeofQosFrame
      + (List.replicate (2 ^ L.mpduByteCountBits) 0).length) hpos
    have h2 : (buildTxWi L (List.replicate (2 ^ L.mpduByteCountBits) 0)).mpduByteCount
        = (L.sizeofWlanFrame + L.sizeofQosFrame
          + (List.replicate (2 ^ L.mpduByteCountBits) 0).length) % 2 ^ L.mpduByteCountBits := rfl
    rw [h2] at h1
    rw [h1, List.length_replicate] at hlt
    omega

/-! ## The range of the rumble power -/

theorem u16_product_lt (m g : Nat) (hm : m < 2 ^ 16) (hg : g < 2 ^ 16) :
    m * g ≤ 0xffff * 0xffff := Nat.mul_le_mul (by omega) (by omega)

/-- C18: for 16-bit magnitudes and gains the 32-bit product does not overflow and the
quotient by `0xFFFFFF` is at most 255, so the power stored in 8 bits is the quotient
itself; it is 255 at `m = g = 0xFFFF`, and it is monotone in the magnitude and in the
gain. -/
theorem rumblePower_range (m g m' g' : Nat) (hm : m < 2 ^ 16) (hg : g < 2 ^ 16)
    (hm' : m' < 2 ^ 16) (hg' : g' < 2 ^ 16) (hmm : m ≤ m') (hgg : g ≤ g') :
    m * g < 2 ^ 32 ∧ m * g / 0xffffff ≤ 255 ∧ rumblePower m g = m * g / 0xffffff ∧
    rumblePower 0xffff 0xffff = 255 ∧ rumblePower m g ≤ rumblePower m' g' := by
  have hp := u16_product_lt m g hm hg
  refine ⟨by omega, ?_, rumblePower_of_u16 m g hm hg, by decide, ?_⟩
  · have : m * g / 0xffffff ≤ 0xffff * 0xffff / 0xffffff := Nat.div_le_div_right hp
    exact le_trans this (by decide)
  · rw [rumblePower_of_u16 m g hm hg, rumblePower_of_u16 m' g' hm' hg']
    exact Nat.div_le_div_right (Nat.mul_le_mul hmm hgg)

/-- Witness for C18: half magnitude at half gain against full magnitude at full gain. -/
theorem rumblePower_range_witness :
    0x8000 * 0x8000 < 2 ^ 32 ∧ rumblePower 0x8000 0x8000 = 0x8000 * 0x8000 / 0xffffff ∧
    rumblePower 0x8000 0x8000 ≤ rumblePower 0xffff 0xffff :=
  have h := rumblePower_range 0x8000 0x8000 0xffff 0xffff (by decide) (by decide) (by decide)
    (by decide) (by decide) (by decide)
  ⟨h.1, h.2.2.1, h.2.2.2.2⟩

/-! ## Theorems about `Controller::deviceAnnounced` -/

/-- C17: for every announce packet, the calls `deviceAnnounced` issues are registrations
followed by one `create`, which carries the packet's vendor id and product id and the
name "Xbox One Wireless Controller"; the registrations are exactly the 11 keys mode,
start, select, A, B, X, Y, both bumpers and both stick clicks, the four stick axes with
range `[-32768, 32767]`, fuzz 255, flat 4095, the two trigger axes with range
`[0, 1023]`, fuzz 3, flat 63, the two D-pad axes with range `[-1, 1]`, fuzz 0, flat 0,
and the one feedback channel rumble. -/
theorem deviceAnnounced_registers (c : Controller) (announce : AnnounceData) :
    ∃ calls : List DeviceCall,
      (deviceAnnounced c announce).inputDevice = c.inputDevice ++ calls ++
        [.create announce.vendorId announce.productId "Xbox One Wireless Controller"] ∧
      (deviceAnnounced c announce).rumbling = c.rumbling ∧
      (∀ call ∈ calls, call.isRegistration = true) ∧
      registeredKeys calls = [.BTN_MODE, .BTN_START, .BTN_SELECT, .BTN_A, .BTN_B, .BTN_X,
        .BTN_Y, .BTN_TL, .BTN_TR, .BTN_THUMBL, .BTN_THUMBR] ∧
      (registeredKeys calls).length = 11 ∧ (registeredKeys calls).Nodup ∧
      registeredAxes calls =
        [(.ABS_X, { minimum := -32768, maximum := 32767, fuzz := 255, flat := 4095 }),
         (.ABS_RX, { minimum := -32768, maximum := 32767, fuzz := 255, flat := 4095 }),
         (.ABS_Y, { minimum := -32768, maximum := 32767, fuzz := 255, flat := 4095 }),
         (.ABS_RY, { minimum := -32768, maximum := 32767, fuzz := 255, flat := 4095 }),
         (.ABS_Z, { minimum := 0, maximum := 1023, fuzz := 3, flat := 63 }),
         (.ABS_RZ, { minimum := 0, maximum := 1023, fuzz := 3, flat := 63 }),
         (.ABS_HAT0X, { minimum := -1, maximum := 1, fuzz := 0, flat := 0 }),
         (.ABS_HAT0Y, { minimum := -1, maximum := 1, fuzz := 0, flat := 0 })] ∧
      registeredFeedback calls = [FF_RUMBLE] := by
  refine ⟨[ .addKey .BTN_MODE, .addKey .BTN_START, .addKey .BTN_SELECT,
        .addKey .BTN_A, .addKey .BTN_B, .addKey .BTN_X, .addKey .BTN_Y,
        .addKey .BTN_TL, .addKey .BTN_TR, .addKey .BTN_THUMBL, .addKey .BTN_THUMBR,
        .addAxis .ABS_X stickConfig, .addAxis .ABS_RX stickConfig,
        .addAxis .ABS_Y stickConfig, .addAxis .ABS_RY stickConfig,
        .addAxis .ABS_Z triggerConfig, .addAxis .ABS_RZ triggerConfig,
        .addAxis .ABS_HAT0X dpadConfig, .addAxis .ABS_HAT0Y dpadConfig,
        .addFeedback FF_RUMBLE ], ?_, rfl, ?_, rfl, rfl, ?_, rfl, rfl⟩
  · simp [deviceAnnounced]
  · intro call hcall
    simp only [List.mem_cons, List.mem_singleton, List.not_mem_nil, or_false] at hcall
    rcases hcall with h | h | h | h | h | h | h | h | h | h | h | h | h | h | h | h | h | h | h | h
      <;> subst h <;> rfl
  · decide

/-! ## Theorems about the client registry -/

theorem slot_set (l : List (Option Session)) (i j : Nat) (v : Option Session)
    (e e' : List DongleEvent) :
    Dongle.slot { controllers := l.set i v, events := e } j
      = if i = j ∧ i < l.length then v else Dongle.slot { controllers := l, events := e' } j := by
  unfold Dongle.slot
  simp only [List.getElem?_set']
  by_cases hij : i = j
  · subst hij
    by_cases hlt : i < l.length
    · simp [hlt, List.getElem?_eq_getElem hlt]
    · simp [hlt, List.getElem?_eq_none (Nat.le_of_not_lt hlt)]
  · simp [hij]

theorem clientConnected_slot (d : Dongle) (wcid : Nat) (address : Bytes) (j : Nat) :
    (clientConnected d wcid address).slot j
      = if wcid - 1 = j ∧ wcid - 1 < d.controllers.length then
          some { wcid := wcid, address := address, controller := Controller.fresh }
        else d.slot j := by
  unfold clientConnected
  rw [slot_set _ _ _ _ _ d.events]

theorem clientDisconnected_of_empty (d : Dongle) (wcid : Nat) (h : d.slot (wcid - 1) = none) :
    clientDisconnected d wcid
      = { d with events := d.events ++ [.error "Controller '%d' is not connected" [wcid]] } := by
  unfold clientDisconnected
  rw [h]

theorem clientDisconnected_of_occupied (d : Dongle) (wcid : Nat) (s : Session)
    (h : d.slot (wcid - 1) = some s) :
    clientDisconnected d wcid
      = { controllers := d.controllers.set (wcid - 1) none
          events := d.events ++ [.info "Controller '%d' disconnected" [wcid]] } := by
  unfold clientDisconnected
  rw [h]

theorem clientDisconnected_slot (d : Dongle) (wcid : Nat) (j : Nat) :
    (clientDisconnected d wcid).slot j = if wcid - 1 = j then none else d.slot j := by
  cases h : d.slot (wcid - 1) with
  | none =>
    rw [clientDisconnected_of_empty d wcid h]
    by_cases hj : wcid - 1 = j
    · rw [if_pos hj, ← hj]
      exact h
    · rw [if_neg hj]
      rfl
  | some s =>
    rw [clientDisconnected_of_occupied d wcid s h, slot_set _ _ _ _ _ d.events]
    by_cases hj : wcid - 1 = j
    · subst hj
      by_cases hlt : wcid - 1 < d.controllers.length
      · simp [hlt]
      · have : d.slot (wcid - 1) = none := by
          unfold Dongle.slot
          rw [List.getElem?_eq_none (Nat.le_of_not_lt hlt)]
          rfl
        rw [this] at h
        cases h
    · simp [hj]

theorem clientConnected_length (d : Dongle) (wcid : Nat) (address : Bytes) :
    (clientConnected d wcid address).controllers.length = d.controllers.length := by
  simp [clientConnected]

theorem clientDisconnected_length (d : Dongle) (wcid : Nat) :
    (clientDisconnected d wcid).controllers.length = d.controllers.length := by
  unfold clientDisconnected
  split <;> simp

/-- C12: for a client identifier in range, `clientConnected` followed by
`clientDisconnected` leaves slot `wcid - 1` empty, and a further `clientDisconnected` is
a no-op: it leaves the table as it is and issues one event, the error log line. -/
theorem connect_disconnect_disconnect (d : Dongle) (wcid : Nat) (h : d.InRange wcid)
    (address : Bytes) :
    (clientConnected d wcid address).slot (wcid - 1)
      = some { wcid := wcid, address := address, controller := Controller.fresh } ∧
    (clientDisconnected (clientConnected d wcid address) wcid).slot (wcid - 1) = none ∧
    (clientDisconnected (clientDisconnected (clientConnected d wcid address) wcid)
        wcid).controllers
      = (clientDisconnected (clientConnected d wcid address) wcid).controllers ∧
    (clientDisconnected (clientDisconnected (clientConnected d wcid address) wcid) wcid).events
      = (clientDisconnected (clientConnected d wcid address) wcid).events
        ++ [.error "Controller '%d' is not connected" [wcid]] := by
  have hlt : wcid - 1 < d.controllers.length := by
    unfold Dongle.InRange at h
    omega
  have h1 : (clientConnected d wcid address).slot (wcid - 1)
      = some { wcid := wcid, address := address, controller := Controller.fresh } := by
    rw [clientConnected_slot, if_pos ⟨rfl, hlt⟩]
  have h2 : (clientDisconnected (clientConnected d wcid address) wcid).slot (wcid - 1)
      = none := by
    rw [clientDisconnected_slot, if_pos rfl]
  refine ⟨h1, h2, ?_, ?_⟩
  · rw [clientDisconnected_of_empty _ wcid h2]
  · rw [clientDisconnected_of_empty _ wcid h2]

/-- Witness for C12: client 2 of the sample registry of four slots. -/
theorem connect_disconnect_disconnect_witness :
    sampleDongle.InRange 2 ∧
    (clientDisconnected (clientConnected sampleDongle 2 [7, 7, 7, 7, 7, 7]) 2).slot (2 - 1)
      = none ∧
    (clientDisconnected (clientDisconnected (clientConnected sampleDongle 2 [7, 7, 7, 7, 7, 7])
        2) 2).controllers
      = (clientDisconnected (clientConnected sampleDongle 2 [7, 7, 7, 7, 7, 7]) 2).controllers :=
  have h := connect_disconnect_disconnect sampleDongle 2 (by decide) [7, 7, 7, 7, 7, 7]
  ⟨by decide, h.2.1, h.2.2.1⟩

theorem packetReceived_of_empty (handlePacket : Controller → Bytes → Bool × Controller)
    (d : Dongle) (wcid : Nat) (packet : Bytes) (h : d.slot (wcid - 1) = none) :
    packetReceived handlePacket d wcid packet
      = { d with events := d.events
            ++ [.error "Packet for unconnected controller '%d'" [wcid]] } := by
  unfold packetReceived
  rw [h]

theorem packetReceived_of_occupied (handlePacket : Controller → Bytes → Bool × Controller)
    (d : Dongle) (wcid : Nat) (packet : Bytes) (s : Session) (h : d.slot (wcid - 1) = some s) :
    packetReceived handlePacket d wcid packet
      = { controllers := d.controllers.set (wcid - 1)
            (some { s with controller := (handlePacket s.controller packet).2 })
          events := d.events ++ [.handlePacket (wcid - 1) packet] ++
            (if !(handlePacket s.controller packet).1 then
              [.error "Error handling packet for controller '%d'" [wcid]] else []) } := by
  unfold packetReceived
  rw [h]

theorem slot_lt_of_some (d : Dongle) (i : Nat) (s : Session) (h : d.slot i = some s) :
    i < d.controllers.length := by
  by_contra hlt
  unfold Dongle.slot at h
  rw [List.getElem?_eq_none (Nat.le_of_not_lt hlt)] at h
  cases h

theorem packetReceived_length (handlePacket : Controller → Bytes → Bool × Controller)
    (d : Dongle) (wcid : Nat) (packet : Bytes) :
    (packetReceived handlePacket d wcid packet).controllers.length = d.controllers.length := by
  unfold packetReceived
  split <;> simp

/-- C13: for a client identifier in range, `packetReceived` never changes which slots
are occupied. When slot `wcid - 1` is empty it leaves the table as it is and issues one
event, the error log line (no `handlePacket` call). When the slot is occupied and
`handlePacket` reports failure, the packet is forwarded to that session, the error is
logged and the session stays in its slot. -/
theorem packetReceived_keeps_slots (handlePacket : Controller → Bytes → Bool × Controller)
    (d : Dongle) (wcid : Nat) (h : d.InRange wcid) (packet : Bytes) :
    (packetReceived handlePacket d wcid packet).InRange wcid ∧
    (∀ j, ((packetReceived handlePacket d wcid packet).slot j).isSome = (d.slot j).isSome) ∧
    (d.slot (wcid - 1) = none →
      (packetReceived handlePacket d wcid packet).controllers = d.controllers ∧
      (packetReceived handlePacket d wcid packet).events
        = d.events ++ [.error "Packet for unconnected controller '%d'" [wcid]]) ∧
    (∀ s, d.slot (wcid - 1) = some s → (handlePacket s.controller packet).1 = false →
      (packetReceived handlePacket d wcid packet).slot (wcid - 1)
        = some { s with controller := (handlePacket s.controller packet).2 } ∧
      (∀ j, j ≠ wcid - 1 → (packetReceived handlePacket d wcid packet).slot j = d.slot j) ∧
      (packetReceived handlePacket d wcid packet).events
        = d.events ++ [.handlePacket (wcid - 1) packet,
            .error "Error handling packet for controller '%d'" [wcid]]) := by
  refine ⟨?_, ?_, ?_, ?_⟩
  · unfold Dongle.InRange at h ⊢
    rw [packetReceived_length]
    exact h
  · intro j
    cases hs : d.slot (wcid - 1) with
    | none =>
      rw [packetReceived_of_empty handlePacket d wcid packet hs]
      rfl
    | some s =>
      rw [packetReceived_of_occupied handlePacket d wcid packet s hs,
        slot_set _ _ _ _ _ d.events]
      by_cases hj : wcid - 1 = j
      · subst hj
        rw [if_pos ⟨rfl, slot_lt_of_some d _ s hs⟩, hs]
        rfl
      · rw [if_neg (fun hc => hj hc.1)]
  · intro hs
    rw [packetReceived_of_empty handlePacket d wcid packet hs]
    exact ⟨rfl, rfl⟩
  · intro s hs hfail
    rw [packetReceived_of_occupied handlePacket d wcid packet s hs]
    refine ⟨?_, ?_, ?_⟩
    · rw [slot_set _ _ _ _ _ d.events, if_pos ⟨rfl, slot_lt_of_some d _ s hs⟩]
    · intro j hj
      rw [slot_set _ _ _ _ _ d.events, if_neg (fun hc => hj hc.1.symm)]
    · simp [hfail]

/-- Witness for C13: a packet for the empty slot of client 1 and a packet that client 2
fails to handle, in the sample registry. -/
theorem packetReceived_keeps_slots_witness :
    sampleDongle.InRange 2 ∧
    (∀ j, ((packetReceived (fun c _ => (false, c)) sampleDongle 2 [9]).slot j).isSome
      = (sampleDongle.slot j).isSome) ∧
    (packetReceived (fun c _ => (false, c)) sampleDongle 1 [9]).controllers
      = sampleDongle.controllers :=
  ⟨by decide,
    (packetReceived_keeps_slots (fun c _ => (false, c)) sampleDongle 2 (by decide) [9]).2.1,
    by decide⟩

/-! ### Shutdown -/

theorem powerOffSweep_count_powerOff (powerOff : Nat → Bool) (l : List (Option Session)) :
    ∀ j i : Nat, (powerOffSweep powerOff j l).count (.powerOff i)
      = if j ≤ i ∧ ((l[i - j]?).join).isSome = true then 1 else 0 := by
  induction l with
  | nil =>
    intro j i
    simp [powerOffSweep]
  | cons x rest ih =>
    intro j i
    cases x with
    | none =>
      rw [powerOffSweep, ih (j + 1) i]
      by_cases hji : j + 1 ≤ i
      · have e : i - j = (i - (j + 1)) + 1 := by omega
        rw [e, List.getElem?_cons_succ]
        simp [hji, Nat.le_of_succ_le hji]
      · by_cases hj : j ≤ i
        · have e : i - j = 0 := by omega
          rw [e]
          simp [hji]
        · simp [hji, hj]
    | some s =>
      rw [powerOffSweep, List.count_cons, List.count_append, ih (j + 1) i]
      have herr : (if (!powerOff j) = true then
          [DongleEvent.error "Failed to power off controller" []] else []).count
            (DongleEvent.powerOff i) = 0 := by
        split <;> simp
      rw [herr]
      by_cases hji : j + 1 ≤ i
      · have e : i - j = (i - (j + 1)) + 1 := by omega
        have hne : j ≠ i := by omega
        rw [e, List.getElem?_cons_succ]
        simp [hji, Nat.le_of_succ_le hji, hne]
      · by_cases hj : j ≤ i
        · have e : i = j := by omega
          subst e
          simp
        · have hne : j ≠ i := by omega
          simp [hji, hj, hne]

theorem powerOffSweep_count_close (powerOff : Nat → Bool) (l : List (Option Session)) :
    ∀ j : Nat, (powerOffSweep powerOff j l).count .transportClose = 0 := by
  induction l with
  | nil =>
    intro j
    simp [powerOffSweep]
  | cons x rest ih =>
    intro j
    cases x with
    | none => rw [powerOffSweep, ih (j + 1)]
    | some s =>
      rw [powerOffSweep, List.count_cons, List.count_append, ih (j + 1)]
      split <;> simp

/-- C14: for every registry and every pattern of `powerOff` outcomes, `beforeClose`
calls `powerOff` exactly once on every occupied slot and on no empty slot, then calls
the transport's close sequence exactly once, as its last action, and returns what that
call returned, whatever the `powerOff` outcomes; the table is left as it is. -/
theorem beforeClose_sweeps (powerOff : Nat → Bool) (transportClose : Bool) (d : Dongle) :
    (beforeClose powerOff transportClose d).2 = transportClose ∧
    (beforeClose powerOff transportClose d).1.controllers = d.controllers ∧
    (beforeClose powerOff transportClose d).1.events
      = d.events ++ beforeCloseEvents powerOff d ∧
    (∀ i, (beforeCloseEvents powerOff d).count (.powerOff i)
      = if (d.slot i).isSome = true then 1 else 0) ∧
    (beforeCloseEvents powerOff d).count .transportClose = 1 ∧
    (beforeCloseEvents powerOff d).getLast? = some .transportClose ∧
    (∀ powerOff' : Nat → Bool,
      (beforeClose powerOff' transportClose d).2 = (beforeClose powerOff transportClose d).2 ∧
      ∀ i, (beforeCloseEvents powerOff' d).count (.powerOff i)
        = (beforeCloseEvents powerOff d).count (.powerOff i)) := by
  have hcount : ∀ (p : Nat → Bool) (i : Nat), (beforeCloseEvents p d).count (.powerOff i)
      = if (d.slot i).isSome = true then 1 else 0 := by
    intro p i
    unfold beforeCloseEvents Dongle.slot
    rw [List.count_append, List.count_append, powerOffSweep_count_powerOff]
    simp
  have hret : ∀ p : Nat → Bool, (beforeClose p transportClose d).2 = transportClose := by
    intro p
    unfold beforeClose
    cases transportClose <;> rfl
  refine ⟨hret powerOff, ?_, ?_, hcount powerOff, ?_, ?_, ?_⟩
  · unfold beforeClose
    cases transportClose <;> rfl
  · unfold beforeClose
    cases transportClose <;> rfl
  · unfold beforeCloseEvents
    rw [List.count_append, List.count_append, powerOffSweep_count_close]
    simp
  · unfold beforeCloseEvents
    rw [List.getLast?_append]
    rfl
  · intro p
    exact ⟨by rw [hret p, hret powerOff], fun i => by rw [hcount p i, hcount powerOff i]⟩

/-! ### Connect and disconnect events -/

theorem apply_length (d : Dongle) (e : ClientEvent) :
    (e.apply d).controllers.length = d.controllers.length := by
  cases e with
  | connect w a => exact clientConnected_length d w a
  | disconnect w => exact clientDisconnected_length d w

theorem apply_occupied (d : Dongle) (e : ClientEvent) (w : Nat) (he : d.InRange e.wcid)
    (hw : d.InRange w) :
    ((e.apply d).slot (w - 1)).isSome
      = if e.wcid = w then e.isConnect else (d.slot (w - 1)).isSome := by
  unfold Dongle.InRange at he hw
  cases e with
  | connect v a =>
    have hv : 1 ≤ v ∧ v ≤ d.controllers.length := he
    show ((clientConnected d v a).slot (w - 1)).isSome = _
    rw [clientConnected_slot]
    by_cases hvw : v = w
    · subst hvw
      rw [if_pos ⟨rfl, by omega⟩]
      simp [ClientEvent.wcid, ClientEvent.isConnect]
    · have hne : ¬ (v - 1 = w - 1 ∧ v - 1 < d.controllers.length) := fun hc => hvw (by omega)
      rw [if_neg hne]
      simp [ClientEvent.wcid, hvw]
  | disconnect v =>
    have hv : 1 ≤ v ∧ v ≤ d.controllers.length := he
    show ((clientDisconnected d v).slot (w - 1)).isSome = _
    rw [clientDisconnected_slot]
    by_cases hvw : v = w
    · subst hvw
      simp [ClientEvent.wcid, ClientEvent.isConnect]
    · have hne : ¬ (v - 1 = w - 1) := fun hc => hvw (by omega)
      rw [if_neg hne]
      simp [ClientEvent.wcid, hvw]

theorem run_occupied (w : Nat) (events : List ClientEvent) :
    ∀ d : Dongle, d.InRange w → (∀ e ∈ events, d.InRange e.wcid) →
      ((ClientEvent.run d events).slot (w - 1)).isSome
        = match ClientEvent.lastFor w events with
          | some b => b
          | none => (d.slot (w - 1)).isSome := by
  induction events with
  | nil =>
    intro d _ _
    rfl
  | cons e rest ih =>
    intro d hw hall
    have he : d.InRange e.wcid := hall e (List.mem_cons_self e rest)
    have hlen := apply_length d e
    have hw' : (e.apply d).InRange w := by
      unfold Dongle.InRange at hw ⊢
      rw [hlen]
      exact hw
    have hall' : ∀ x ∈ rest, (e.apply d).InRange x.wcid := by
      intro x hx
      have := hall x (List.mem_cons_of_mem e hx)
      unfold Dongle.InRange at this ⊢
      rw [hlen]
      exact this
    have hrun : ClientEvent.run d (e :: rest) = ClientEvent.run (e.apply d) rest := rfl
    rw [hrun, ih (e.apply d) hw' hall', ClientEvent.lastFor]
    cases hl : ClientEvent.lastFor w rest with
    | some b => rfl
    | none =>
      simp only
      rw [apply_occupied d e w he hw]
      by_cases hew : e.wcid = w
      · simp [hew]
      · simp [hew]

theorem init_slot_empty (size j : Nat) : (Dongle.init size).slot j = none := by
  unfold Dongle.slot Dongle.init
  by_cases hj : j < size
  · simp [List.getElem?_replicate, hj]
  · simp [List.getElem?_replicate, hj]

/-- C16: for a client identifier in range, `clientConnected` stores a freshly
constructed session (rumbling flag false, no call issued to its device) in slot
`wcid - 1`, whatever was there, and leaves every other slot as it is; `clientDisconnected`
changes no slot other than `wcid - 1`. Hence after any sequence of connect and disconnect
events with identifiers in range, slot `wcid - 1` is occupied exactly when the most recent
event for `wcid` is a connect, or when there is no event for `wcid` and the slot was
occupied at the start; from a registry with all slots empty, exactly when the most
recent event for `wcid` is a connect. -/
theorem connect_stores_fresh_session (d : Dongle) (wcid : Nat) (h : d.InRange wcid)
    (address : Bytes) :
    (clientConnected d wcid address).slot (wcid - 1)
      = some { wcid := wcid, address := address, controller := Controller.fresh } ∧
    Controller.fresh.rumbling = false ∧ Controller.fresh.inputDevice = [] ∧
    (∀ j, j ≠ wcid - 1 → (clientConnected d wcid address).slot j = d.slot j) ∧
    (∀ j, j ≠ wcid - 1 → (clientDisconnected d wcid).slot j = d.slot j) ∧
    (∀ events : List ClientEvent, (∀ e ∈ events, d.InRange e.wcid) →
      (((ClientEvent.run d events).slot (wcid - 1)).isSome = true ↔
        (ClientEvent.lastFor wcid events = some true ∨
          (ClientEvent.lastFor wcid events = none ∧ (d.slot (wcid - 1)).isSome = true)))) ∧
    ((∀ j, d.slot j = none) →
      ∀ events : List ClientEvent, (∀ e ∈ events, d.InRange e.wcid) →
        (((ClientEvent.run d events).slot (wcid - 1)).isSome = true ↔
          ClientEvent.lastFor wcid events = some true)) := by
  have hlt : wcid - 1 < d.controllers.length := by
    unfold Dongle.InRange at h
    omega
  have hseq : ∀ events : List ClientEvent, (∀ e ∈ events, d.InRange e.wcid) →
      (((ClientEvent.run d events).slot (wcid - 1)).isSome = true ↔
        (ClientEvent.lastFor wcid events = some true ∨
          (ClientEvent.lastFor wcid events = none ∧ (d.slot (wcid - 1)).isSome = true))) := by
    intro events hall
    rw [run_occupied wcid events d h hall]
    cases hl : ClientEvent.lastFor wcid events with
    | some b => cases b <;> simp
    | none => simp
  refine ⟨?_, rfl, rfl, ?_, ?_, hseq, ?_⟩
  · rw [clientConnected_slot, if_pos ⟨rfl, hlt⟩]
  · intro j hj
    rw [clientConnected_slot, if_neg (fun hc => hj hc.1.symm)]
  · intro j hj
    rw [clientDisconnected_slot, if_neg (fun hc => hj hc.symm)]
  · intro hempty events hall
    rw [hseq events hall, hempty (wcid - 1)]
    simp

/-- Witness for C16: in a registry of four empty slots, after connect 2, connect 3,
disconnect 2, connect 2 the slot of client 2 is occupied, and the most recent event for
client 2 is a connect. -/
theorem connect_stores_fresh_session_witness :
    (Dongle.init 4).InRange 2 ∧
    ((ClientEvent.run (Dongle.init 4)
        [.connect 2 [], .connect 3 [], .disconnect 2, .connect 2 [1]]).slot (2 - 1)).isSome
      = true ∧
    ClientEvent.lastFor 2 [.connect 2 [], .connect 3 [], .disconnect 2, .connect 2 [1]]
      = some true :=
  have h := (connect_stores_fresh_session (Dongle.init 4) 2 (by decide) []).2.2.2.2.2.2
    (init_slot_empty 4) [.connect 2 [], .connect 3 [], .disconnect 2, .connect 2 [1]]
    (by decide)
  ⟨by decide, h.mpr (by decide), by decide⟩

/-! ## Sequences of `feedbackReceived` calls -/

theorem chain_adjacent {α : Type} (R : α → α → Prop) :
    ∀ (l : List α) (i : Nat) (a b : α), List.Chain' R l → l[i]? = some a →
      l[i + 1]? = some b → R a b := by
  intro l
  induction l with
  | nil =>
    intro i a b _ ha
    simp at ha
  | cons x t ih =>
    intro i a b hc ha hb
    cases i with
    | zero =>
      rw [List.getElem?_cons_zero] at ha
      rw [List.getElem?_cons_succ] at hb
      cases ha
      cases t with
      | nil => simp at hb
      | cons y t' =>
        rw [List.getElem?_cons_zero] at hb
        cases hb
        exact (List.chain'_cons.mp hc).1
    | succ n =>
      rw [List.getElem?_cons_succ] at ha hb
      exact ih n a b hc.tail ha hb

theorem feedbackSequence_cons_send (E : FloatEnv) (c : Controller) (effect : ff_effect)
    (gain : Nat) (rest : List (ff_effect × Nat)) (ht : effect.type = FF_RUMBLE)
    (hs : c.rumbling = true ∨ gain ≠ 0) :
    feedbackSequence E c ((effect, gain) :: rest)
      = ((feedbackSequence E { c with rumbling := decide (gain > 0) } rest).1,
          (gain, buildRumble E effect gain)
            :: (feedbackSequence E { c with rumbling := decide (gain > 0) } rest).2) := by
  rw [feedbackSequence, feedbackReceived_of_send E c effect gain ht hs]
  rfl

theorem feedbackSequence_cons_skip (E : FloatEnv) (c : Controller) (effect : ff_effect)
    (gain : Nat) (rest : List (ff_effect × Nat))
    (hs : ¬ (effect.type = FF_RUMBLE ∧ (c.rumbling = true ∨ gain ≠ 0))) :
    feedbackSequence E c ((effect, gain) :: rest) = feedbackSequence E c rest := by
  rw [feedbackSequence, feedbackReceived_of_skip E c effect gain hs]
  rfl

theorem feedbackSequence_invariant (E : FloatEnv) (calls : List (ff_effect × Nat)) :
    ∀ c : Controller,
      List.Chain' (fun a b : Nat × RumbleData => ¬ (a.1 = 0 ∧ b.1 = 0))
        (feedbackSequence E c calls).2 ∧
      (c.rumbling = false → ∀ s ∈ (feedbackSequence E c calls).2.head?, s.1 ≠ 0) ∧
      ((feedbackSequence E c calls).2 = [] →
        (feedbackSequence E c calls).1.rumbling = c.rumbling) ∧
      (∀ s, (feedbackSequence E c calls).2.getLast? = some s →
        (feedbackSequence E c calls).1.rumbling = decide (s.1 > 0)) := by
  induction calls with
  | nil =>
    intro c
    refine ⟨List.chain'_nil, ?_, fun _ => rfl, ?_⟩
    · intro _ s hs
      simp [feedbackSequence] at hs
    · intro s hs
      simp [feedbackSequence] at hs
  | cons call rest ih =>
    intro c
    obtain ⟨effect, gain⟩ := call
    by_cases hs : effect.type = FF_RUMBLE ∧ (c.rumbling = true ∨ gain ≠ 0)
    · rw [feedbackSequence_cons_send E c effect gain rest hs.1 hs.2]
      obtain ⟨ih1, ih2, ih3, ih4⟩ := ih { c with rumbling := decide (gain > 0) }
      refine ⟨?_, ?_, ?_, ?_⟩
      · rw [List.chain'_cons']
        refine ⟨?_, ih1⟩
        intro y hy hzero
        have hflag : ({ c with rumbling := decide (gain > 0) } : Controller).rumbling
            = false := by
          have hg : gain = 0 := hzero.1
          show decide (gain > 0) = false
          rw [hg]
          rfl
        exact ih2 hflag y hy hzero.2
      · intro hc s hmem
        simp only [List.head?_cons, Option.mem_def, Option.some.injEq] at hmem
        subst hmem
        rcases hs.2 with h | h
        · rw [hc] at h
          cases h
        · exact h
      · intro hnil
        cases hnil
      · intro s hlast
        rw [List.getLast?_cons] at hlast
        cases hl : (feedbackSequence E { c with rumbling := decide (gain > 0) } rest).2.getLast?
          with
        | none =>
          rw [hl] at hlast
          simp only [Option.getD_none, Option.some.injEq] at hlast
          subst hlast
          have hnil := List.getLast?_eq_none_iff.mp hl
          exact ih3 hnil
        | some t =>
          rw [hl] at hlast
          simp only [Option.getD_some, Option.some.injEq] at hlast
          subst hlast
          exact ih4 _ hl
    · rw [feedbackSequence_cons_skip E c effect gain rest hs]
      exact ih c

/-- C20: starting from a freshly constructed session, after every finite sequence of
`feedbackReceived` calls no two consecutive commands sent both come from calls with gain
0, so between any two commands sent with gain 0 there is one sent with a positive gain;
and the rumbling flag is `gain > 0` of the most recently sent command, or false if none
was sent. -/
theorem feedbackSequence_alternates (E : FloatEnv) (calls : List (ff_effect × Nat)) :
    List.Chain' (fun a b : Nat × RumbleData => ¬ (a.1 = 0 ∧ b.1 = 0))
      (feedbackSequence E Controller.fresh calls).2 ∧
    (∀ (i j : Nat) (a b : Nat × RumbleData), i < j →
      (feedbackSequence E Controller.fresh calls).2[i]? = some a →
      (feedbackSequence E Controller.fresh calls).2[j]? = some b → a.1 = 0 → b.1 = 0 →
      ∃ (k : Nat) (m : Nat × RumbleData), i < k ∧ k < j ∧
        (feedbackSequence E Controller.fresh calls).2[k]? = some m ∧ 0 < m.1) ∧
    ((feedbackSequence E Controller.fresh calls).2 = [] →
      (feedbackSequence E Controller.fresh calls).1.rumbling = false) ∧
    (∀ s, (feedbackSequence E Controller.fresh calls).2.getLast? = some s →
      (feedbackSequence E Controller.fresh calls).1.rumbling = decide (s.1 > 0)) := by
  obtain ⟨h1, -, h3, h4⟩ := feedbackSequence_invariant E calls Controller.fresh
  refine ⟨h1, ?_, h3, h4⟩
  intro i j a b hij ha hb ha0 hb0
  have hjlt : j < (feedbackSequence E Controller.fresh calls).2.length := by
    by_contra hc
    rw [List.getElem?_eq_none (Nat.le_of_not_lt hc)] at hb
    cases hb
  have hk : i + 1 < (feedbackSequence E Controller.fresh calls).2.length := by omega
  have hm := List.getElem?_eq_getElem hk
  have hR := chain_adjacent _ _ i a _ h1 ha hm
  have hpos : 0 < ((feedbackSequence E Controller.fresh calls).2[i + 1]).1 := by
    apply Nat.pos_of_ne_zero
    intro hc
    exact hR ⟨ha0, hc⟩
  refine ⟨i + 1, _, Nat.lt_succ_self i, ?_, hm, hpos⟩
  by_contra hc
  have hji : j = i + 1 := by omega
  subst hji
  rw [hm] at hb
  cases hb
  omega

/-! ## The range of the trigger powers -/

theorem rumblePower_lt (m g : Nat) : rumblePower m g < 256 := by
  unfold rumblePower
  exact Nat.mod_lt _ (by norm_num)

theorem toFloat_nat (E : FloatEnv) (direction : Nat) (hE : E.Regular direction) (n : ℕ)
    (hn : n ≤ 255) : E.toFloat (n : ℚ) = n := by
  have h := hE.2.1 (4 * n) (by omega)
  have e : (((4 * n : ℕ) : ℚ)) / 4 = n := by
    push_cast
    ring
  rw [e] at h
  exact h

theorem toFloat_quarter (E : FloatEnv) (direction : Nat) (hE : E.Regular direction) (n : ℕ)
    (hn : n ≤ 255) : E.toFloat ((n : ℚ) / 4) = (n : ℚ) / 4 :=
  hE.2.1 n (by omega)

theorem floatToU8_le (z : ℚ) (p : ℕ) (hz : z ≤ (p : ℚ) / 4) : floatToU8 z ≤ p / 4 := by
  unfold floatToU8
  refine le_trans (Nat.mod_le _ _) ?_
  rw [Int.toNat_le]
  have hnat : p < 4 * (p / 4 + 1) := by omega
  generalize p / 4 = n at hnat ⊢
  have hlt : (p : ℚ) < 4 * ((n : ℚ) + 1) := by exact_mod_cast hnat
  have hz' : z < (((n : ℤ) + 1 : ℤ) : ℚ) := by
    push_cast
    linarith only [hz, hlt]
  have := Int.floor_lt.mpr hz'
  omega

theorem leftAmount_range (E : FloatEnv) (direction : Nat) (hE : E.Regular direction) :
    0 ≤ E.leftAmount direction ∧ E.leftAmount direction ≤ 1 := by
  have h1 : E.toFloat (E.sin (E.phase direction)) ≤ 1 := by
    have := hE.1 _ _ hE.2.2.2.1.2
    have e := toFloat_nat E direction hE 1 (by norm_num)
    rw [Nat.cast_one] at e
    rwa [e] at this
  unfold FloatEnv.leftAmount
  simp only
  split
  · next hpos => exact ⟨le_of_lt hpos, h1⟩
  · exact ⟨le_refl 0, zero_le_one⟩

theorem rightAmount_range (E : FloatEnv) (direction : Nat) (hE : E.Regular direction) :
    0 ≤ E.rightAmount direction ∧ E.rightAmount direction ≤ 1 := by
  have h1 : -1 ≤ E.toFloat (E.cos (E.phase direction)) := by
    have := hE.1 _ _ hE.2.2.2.2.1
    rwa [hE.2.2.1] at this
  unfold FloatEnv.rightAmount
  simp only
  split
  · next hneg => exact ⟨by linarith only [hneg], by linarith only [h1]⟩
  · exact ⟨le_refl 0, zero_le_one⟩

theorem triggerPower_le (E : FloatEnv) (direction : Nat) (hE : E.Regular direction)
    (amount : ℚ) (h1 : amount ≤ 1) (p : ℕ) (hp : p ≤ 255) :
    E.triggerPower amount p ≤ p / 4 := by
  unfold FloatEnv.triggerPower
  apply floatToU8_le
  have e4 : E.toFloat 4 = 4 := by
    have := toFloat_nat E direction hE 4 (by norm_num)
    exact_mod_cast this
  rw [toFloat_nat E direction hE p hp, e4]
  have hp0 : (0 : ℚ) ≤ (p : ℚ) := Nat.cast_nonneg p
  have hx : amount * (p : ℚ) ≤ (p : ℚ) := by
    have := mul_le_mul_of_nonneg_right h1 hp0
    rwa [one_mul] at this
  have hfx : E.toFloat (amount * (p : ℚ)) ≤ (p : ℚ) := by
    have := hE.1 _ _ hx
    rwa [toFloat_nat E direction hE p hp] at this
  have hq : E.toFloat (amount * (p : ℚ)) / 4 ≤ (p : ℚ) / 4 :=
    div_le_div_of_nonneg_right hfx (by norm_num)
  have := hE.1 _ _ hq
  rwa [toFloat_quarter E direction hE p hp] at this

/-- C19: when conversion to `float` is monotone and exact on the representable values
involved and `sin` and `cos` return values in `[-1, 1]`, every command
`feedbackReceived` sends has both trigger powers at most `maxPower / 4`, where
`maxPower` is the larger of the left and right powers, hence at most 63; and when the
left and right powers are both zero, the trigger powers are zero, whatever the
direction. -/
theorem trigger_power_bound (E : FloatEnv) (c : Controller) (effect : ff_effect) (gain : Nat)
    (hE : E.Regular effect.direction) :
    ∀ cmd ∈ (feedbackReceived E c effect gain).2,
      cmd.triggerLeft ≤ max cmd.left cmd.right / 4 ∧
      cmd.triggerRight ≤ max cmd.left cmd.right / 4 ∧
      cmd.triggerLeft ≤ 63 ∧ cmd.triggerRight ≤ 63 ∧
      (cmd.left = 0 → cmd.right = 0 → cmd.triggerLeft = 0 ∧ cmd.triggerRight = 0) := by
  intro cmd hcmd
  have hbound : cmd.triggerLeft ≤ max cmd.left cmd.right / 4 ∧
      cmd.triggerRight ≤ max cmd.left cmd.right / 4 ∧ max cmd.left cmd.right ≤ 255 := by
    by_cases hs : effect.type = FF_RUMBLE ∧ (c.rumbling = true ∨ gain ≠ 0)
    · rw [feedbackReceived_of_send E c effect gain hs.1 hs.2] at hcmd
      have hc : cmd = buildRumble E effect gain := by simpa using hcmd
      subst hc
      have hw := rumblePower_lt effect.weak_magnitude gain
      have hst := rumblePower_lt effect.strong_magnitude gain
      have hmax : (if rumblePower effect.strong_magnitude gain
            > rumblePower effect.weak_magnitude gain
          then rumblePower effect.strong_magnitude gain
          else rumblePower effect.weak_magnitude gain)
          = max (rumblePower effect.strong_magnitude gain)
              (rumblePower effect.weak_magnitude gain) := by
        split <;> omega
      have hle : max (rumblePower effect.strong_magnitude gain)
          (rumblePower effect.weak_magnitude gain) ≤ 255 := by omega
      unfold buildRumble
      simp only
      split
      · simp only [hmax]
        obtain ⟨-, hl1⟩ := leftAmount_range E effect.direction hE
        obtain ⟨-, hr1⟩ := rightAmount_range E effect.direction hE
        exact ⟨triggerPower_le E effect.direction hE _ hl1 _ hle,
          triggerPower_le E effect.direction hE _ hr1 _ hle, hle⟩
      · exact ⟨Nat.zero_le _, Nat.zero_le _, hle⟩
    · rw [feedbackReceived_of_skip E c effect gain hs] at hcmd
      simp at hcmd
  obtain ⟨hl, hr, hm⟩ := hbound
  refine ⟨hl, hr, by omega, by omega, ?_⟩
  intro h1 h2
  rw [h1, h2] at hl hr
  simp at hl hr
  exact ⟨hl, hr⟩

theorem exactEnv_regular : exactEnv.Regular 0x8000 := by
  obtain ⟨hs1, hs2⟩ := exactEnv_sin_value
  obtain ⟨hc1, hc2⟩ := exactEnv_cos_value
  refine ⟨fun x y h => h, fun k _ => rfl, rfl, ⟨?_, ?_⟩, ?_, ?_⟩
  · exact le_trans (by norm_num) hs1
  · exact le_trans hs2 (by norm_num)
  · exact le_trans (by norm_num) hc1
  · exact le_trans hc2 (by norm_num)

/-- Witness for C19: direction `0x8000` at full gain; the command sent has left power
255 and right power 63, and both trigger powers are at most 63. -/
theorem trigger_power_bound_witness :
    exactEnv.Regular forwardEffect.direction ∧
    (feedbackReceived exactEnv {} forwardEffect 0xffff).2.length = 1 ∧
    ∀ cmd ∈ (feedbackReceived exactEnv {} forwardEffect 0xffff).2,
      cmd.triggerLeft ≤ max cmd.left cmd.right / 4 ∧
      cmd.triggerRight ≤ max cmd.left cmd.right / 4 :=
  ⟨exactEnv_regular, by decide,
    fun cmd hcmd =>
      have h := trigger_power_bound exactEnv {} forwardEffect 0xffff exactEnv_regular cmd hcmd
      ⟨h.1, h.2.1⟩⟩

end Xow
